import Mathlib

/-
Verification of the FalkorDB Bolt session layer: the chunked I/O buffer
(src/bolt/buffer.c), the session state machine and the message framing
(src/bolt/bolt_client.c).  The C code is shallowly embedded: chunk memory is a
total function from (chunk index, in-chunk offset) to a byte value, so that
bytes of a freshly allocated chunk (rm_malloc returns uninitialized memory)
and bytes past the end of a chunk are modelled as arbitrary unconstrained
values.  C unsigned arithmetic is modelled on Nat (or Int) with explicit
reductions modulo 2^32 or 2^16 where the C type makes wrap-around reachable;
the few places where a wrap would require an already-corrupt cursor keep
plain Nat arithmetic and carry a comment.  C ASSERT conditions are
preconditions: they appear as hypotheses of the theorems, except in the state
machine where trapping on an unlisted transition is the specified behaviour
and is modelled by an Option-valued result (none = assertion trap).
-/

set_option autoImplicit false

namespace FalkorBolt

/-- Modelled from the spec: the constant BUFFER_CHUNK_SIZE lives in the header
buffer.h, which is not among the sources; §3 of the spec fixes a chunked
buffer of implementation-chosen fixed size, e.g. 4096. -/
def BUFFER_CHUNK_SIZE : Nat := 4096

/-- Chunk memory of one buffer: chunk index and in-chunk offset to byte value.
A total function, so reads of uninitialized or out-of-bounds bytes yield an
arbitrary value fixed by the initial memory, the way uninitialized heap
memory behaves. -/
def Mem : Type := Nat → Nat → Nat

/-- The C memcpy of `len` bytes from the byte source `src` to chunk `c` of a
buffer at offsets `o, o+1, ...`: the region takes the new bytes, everything
else keeps its old value. -/
def memcpy (m : Mem) (c o : Nat) (src : Nat → Nat) (len : Nat) : Mem :=
  fun c2 o2 => if c2 = c ∧ o ≤ o2 ∧ o2 < o + len then src (o2 - o) else m c2 o2

/-- buffer_index_t without its buf back-pointer: both fields are uint32_t in
the C declaration (the buffer pointer is passed separately in the shallow
embedding). -/
structure BIndex where
  chunk : Nat
  off : Nat
  deriving DecidableEq, Repr

/-- Absolute byte position denoted by a cursor. -/
def BIndex.pos (i : BIndex) : Nat :=
  i.chunk * BUFFER_CHUNK_SIZE + i.off

/-- buffer_t: chunk memory, the length of the chunks array, and the two
distinguished cursors. -/
structure Buffer where
  mem : Mem
  nchunks : Nat
  read : BIndex
  write : BIndex

/-- The byte a buffer holds at absolute position p (normalized coordinates). -/
def byteAt (b : Buffer) (p : Nat) : Nat :=
  b.mem (p / BUFFER_CHUNK_SIZE) (p % BUFFER_CHUNK_SIZE)

/-- The n bytes a buffer holds from absolute position p on. -/
def bytesAt (b : Buffer) (p n : Nat) : List Nat :=
  (List.range n).map (fun k => byteAt b (p + k))

/-- buffer_index: position a cursor offset bytes from the start of the buffer
(the ASSERT offset < BUFFER_CHUNK_SIZE * array_len(chunks) is a precondition
and does not enter the computation). -/
def buffer_index (off : Nat) : BIndex :=
  ⟨off / BUFFER_CHUNK_SIZE, off % BUFFER_CHUNK_SIZE⟩

/-- buffer_index_add: offset += n, and the cursor rolls into a later chunk
only when the new offset strictly exceeds BUFFER_CHUNK_SIZE.  Both fields are
uint32_t, hence the reductions modulo 2^32. -/
def buffer_index_add (i : BIndex) (n : Nat) : BIndex :=
  let off := (i.off + n) % 2 ^ 32
  if off > BUFFER_CHUNK_SIZE then
    ⟨(i.chunk + off / BUFFER_CHUNK_SIZE) % 2 ^ 32, off % BUFFER_CHUNK_SIZE⟩
  else
    ⟨i.chunk, off⟩

/-- buffer_index_diff: the C computes (a.chunk - b.chunk) * BUFFER_CHUNK_SIZE
+ (a.offset - b.offset) in uint32 arithmetic and assigns the result to a
uint16.  Because 2^16 divides 2^32, the uint32 wrap followed by the uint16
truncation equals the exact integer value of the expression reduced modulo
2^16, which is how it is written here. -/
def buffer_index_diff (a b : BIndex) : Nat :=
  ((((a.chunk : Int) - b.chunk) * BUFFER_CHUNK_SIZE
      + ((a.off : Int) - b.off)) % (2 ^ 16 : Int)).toNat

/-- Little-endian byte list of the low w bytes of v: the in-memory layout of
a w-byte unsigned scalar on the little-endian hosts the code targets. -/
def leBytes : Nat → Nat → List Nat
  | 0, _ => []
  | w + 1, v => v % 256 :: leBytes w (v / 256)

/-- Value of a little-endian byte list, as read by a w-byte pointer cast. -/
def leVal : List Nat → Nat
  | [] => 0
  | b :: bs => b + 256 * leVal bs

/-- htons on a little-endian host: the uint16 whose memory bytes are the
big-endian bytes of v. -/
def htons (v : Nat) : Nat :=
  (v % 256) * 256 + v / 256 % 256

/-- buffer_write: bulk write with chunk rollover, allocating a chunk when the
write reaches the end of the chunks array.  The loop body computes
first_chunk_size = BUFFER_CHUNK_SIZE - offset with uint32 subtraction; a
cursor with off > BUFFER_CHUNK_SIZE would wrap there and memcpy far out of
bounds (undefined behaviour in the C), so plain Nat subtraction is used and
the theorems require off ≤ BUFFER_CHUNK_SIZE. -/
def buffer_write (b : Buffer) (i : BIndex) (data : List Nat) : Buffer × BIndex :=
  if h : i.off + data.length > BUFFER_CHUNK_SIZE then
    let fcs := BUFFER_CHUNK_SIZE - i.off
    let b1 : Buffer :=
      { b with mem := memcpy b.mem i.chunk i.off (fun k => data.getD k 0) fcs }
    -- buffer_index_add(buf, first_chunk_size) leaves offset = BUFFER_CHUNK_SIZE,
    -- then the C sets chunk++ and offset = 0
    let i1 : BIndex := ⟨i.chunk + 1, 0⟩
    let b2 : Buffer :=
      if b1.nchunks = i1.chunk then { b1 with nchunks := b1.nchunks + 1 } else b1
    buffer_write b2 i1 (data.drop fcs)
  else
    ({ b with mem := memcpy b.mem i.chunk i.off (fun k => data.getD k 0) data.length },
      buffer_index_add i data.length)
termination_by data.length * (BUFFER_CHUNK_SIZE + 1) + i.off
decreasing_by
  have hc : BUFFER_CHUNK_SIZE = 4096 := rfl
  simp only [List.length_drop]
  rw [hc] at h ⊢
  omega

/-- buffer_read (the bulk copy): copies size bytes from the source cursor to
the destination cursor, rolling both cursors over chunk ends and appending a
chunk to the destination when its chunks array runs out.  The available sizes
BUFFER_CHUNK_SIZE - offset are uint32 subtractions; a wrap needs a cursor
with off > BUFFER_CHUNK_SIZE, which makes the C memcpy far out of bounds, so
plain Nat subtraction is used here.  Returns the advanced source cursor, the
new destination buffer and the advanced destination cursor (the source
buffer memory is never modified). -/
def buffer_read (srcB : Buffer) (si : BIndex) (dstB : Buffer) (di : BIndex)
    (size : Nat) : BIndex × Buffer × BIndex :=
  if h0 : size = 0 then (si, dstB, di)
  else if h1 : size < BUFFER_CHUNK_SIZE - si.off ∧ size < BUFFER_CHUNK_SIZE - di.off then
    (buffer_index_add si size,
      { dstB with
        mem := memcpy dstB.mem di.chunk di.off (fun k => srcB.mem si.chunk (si.off + k)) size },
      buffer_index_add di size)
  else if h2 : BUFFER_CHUNK_SIZE - si.off < BUFFER_CHUNK_SIZE - di.off then
    -- drain the rest of the source chunk, roll the source cursor
    buffer_read srcB ⟨si.chunk + 1, 0⟩
      { dstB with
        mem := memcpy dstB.mem di.chunk di.off (fun k => srcB.mem si.chunk (si.off + k))
          (BUFFER_CHUNK_SIZE - si.off) }
      ⟨di.chunk, di.off + (BUFFER_CHUNK_SIZE - si.off)⟩
      (size - (BUFFER_CHUNK_SIZE - si.off))
  else
    -- fill the rest of the destination chunk, roll the destination cursor,
    -- appending a chunk when the chunks array is exhausted
    let b1 : Buffer :=
      { dstB with
        mem := memcpy dstB.mem di.chunk di.off (fun k => srcB.mem si.chunk (si.off + k))
          (BUFFER_CHUNK_SIZE - di.off) }
    let b2 : Buffer :=
      if b1.nchunks = di.chunk + 1 then { b1 with nchunks := b1.nchunks + 1 } else b1
    buffer_read srcB ⟨si.chunk, si.off + (BUFFER_CHUNK_SIZE - di.off)⟩ b2 ⟨di.chunk + 1, 0⟩
      (size - (BUFFER_CHUNK_SIZE - di.off))
termination_by size * (2 * BUFFER_CHUNK_SIZE + 2) + si.off + di.off
decreasing_by
  · simp only [BUFFER_CHUNK_SIZE] at h1 h2 ⊢
    omega
  · simp only [BUFFER_CHUNK_SIZE] at h1 h2 ⊢
    omega

/-- One socket_read result: the int return value together with the byte
stream the kernel would deposit (meaningful only when the return value is
positive). -/
def SockCall : Type := Int × (Nat → Nat)

/-- The loop body of buffer_socket_read once a read succeeded: start a fresh
chunk (offset = 0, chunk++, array_append), deposit the nread bytes of the
full-chunk read at its start, advance the write cursor by nread. -/
def bsr_step (b : Buffer) (n : Int) (d : Nat → Nat) : Buffer :=
  let b1 : Buffer := { b with write := ⟨b.write.chunk + 1, 0⟩, nchunks := b.nchunks + 1 }
  { b1 with
    mem := memcpy b1.mem b1.write.chunk 0 d n.toNat,
    write := buffer_index_add b1.write n.toNat }

/-- The state after the initial socket_read of buffer_socket_read deposited
its nread bytes at the write cursor. -/
def bsr_init (b : Buffer) (n : Int) (d : Nat → Nat) : Buffer :=
  { b with
    mem := memcpy b.mem b.write.chunk b.write.off d n.toNat,
    write := buffer_index_add b.write n.toNat }

/-- The continuation loop of buffer_socket_read: while the write cursor sits
exactly at the end of its chunk, start a fresh chunk and issue another
socket_read of a full chunk.  Each loop iteration consumes one entry of the
socket stream; none means the finite stream model was exhausted before the
loop exited. -/
def bsr_loop : Buffer → List SockCall → Option (Bool × Buffer)
  | b, [] => if b.write.off = BUFFER_CHUNK_SIZE then none else some (true, b)
  | b, (n, d) :: rest =>
    if b.write.off = BUFFER_CHUNK_SIZE then
      if n < 0 then
        some (false, { b with write := ⟨b.write.chunk + 1, 0⟩, nchunks := b.nchunks + 1 })
      else bsr_loop (bsr_step b n d) rest
    else some (true, b)

/-- buffer_socket_read: one non-blocking read of the remainder of the
current chunk, failing on an error or on EOF with the chunk not already
full, then the refill loop. -/
def buffer_socket_read (b : Buffer) : List SockCall → Option (Bool × Buffer)
  | [] => none
  | (n, d) :: rest =>
    if n < 0 ∨ (n = 0 ∧ b.write.off < BUFFER_CHUNK_SIZE) then some (false, b)
    else bsr_loop (bsr_init b n d) rest

/-- The loop of buffer_socket_read reports failure exactly when some
continuation read (a read issued right after a chunk filled) returns an
error; a continuation EOF is not failure. -/
def bsr_loop_fails : Buffer → List SockCall → Prop
  | _, [] => False
  | b, (n, d) :: rest =>
    b.write.off = BUFFER_CHUNK_SIZE ∧ (n < 0 ∨ bsr_loop_fails (bsr_step b n d) rest)

/-- buffer_socket_read reports failure exactly when the initial read returns
an error, or returns EOF while the current chunk is not already full, or a
continuation read returns an error. -/
def buffer_socket_read_fails (b : Buffer) : List SockCall → Prop
  | [] => False
  | (n, d) :: rest =>
    (n < 0 ∨ (n = 0 ∧ b.write.off < BUFFER_CHUNK_SIZE)) ∨
      (¬(n < 0 ∨ (n = 0 ∧ b.write.off < BUFFER_CHUNK_SIZE)) ∧
        bsr_loop_fails (bsr_init b n d) rest)

def bsr_loop_fails_dec : (sock : List SockCall) → (b : Buffer) →
    Decidable (bsr_loop_fails b sock)
  | [], _ => .isFalse (fun h => h)
  | (n, d) :: rest, b =>
    have : Decidable (bsr_loop_fails (bsr_step b n d) rest) := bsr_loop_fails_dec rest _
    inferInstanceAs (Decidable (_ ∧ (_ ∨ _)))

instance (b : Buffer) (sock : List SockCall) : Decidable (bsr_loop_fails b sock) :=
  bsr_loop_fails_dec sock b

instance (b : Buffer) (sock : List SockCall) : Decidable (buffer_socket_read_fails b sock) := by
  cases sock with
  | nil => exact .isFalse (fun h => h)
  | cons c rest => exact inferInstanceAs (Decidable (_ ∨ _))

/-- buffer_socket_write: the byte stream handed to socket_write_all — every
chunk before the cursor chunk in full, then the cursor chunk up to the
cursor offset. -/
def buffer_socket_write (b : Buffer) (i : BIndex) : List Nat :=
  ((List.range i.chunk).flatMap fun c => (List.range BUFFER_CHUNK_SIZE).map (b.mem c))
    ++ (List.range i.off).map (b.mem i.chunk)

/-- A typed scalar write or read of the buffer, tagged with its width. -/
inductive Scalar where
  | u8 (v : Nat)
  | u16 (v : Nat)
  | u32 (v : Nat)
  | u64 (v : Nat)
  deriving DecidableEq, Repr

def Scalar.width : Scalar → Nat
  | .u8 _ => 1
  | .u16 _ => 2
  | .u32 _ => 4
  | .u64 _ => 8

def Scalar.val : Scalar → Nat
  | .u8 v => v
  | .u16 v => v
  | .u32 v => v
  | .u64 v => v

/-- buffer_write_uint8 buffer_write_uint16 buffer_write_uint32
buffer_write_uint64: each takes the address of the fixed-width value and
bulk-writes its little-endian memory bytes. -/
def buffer_write_scalar (b : Buffer) (i : BIndex) (s : Scalar) : Buffer × BIndex :=
  buffer_write b i (leBytes s.width s.val)

def buffer_write_uint8 (b : Buffer) (i : BIndex) (v : Nat) : Buffer × BIndex :=
  buffer_write b i (leBytes 1 v)

def buffer_write_uint16 (b : Buffer) (i : BIndex) (v : Nat) : Buffer × BIndex :=
  buffer_write b i (leBytes 2 v)

/-- buffer_read_uint8 buffer_read_uint16 buffer_read_uint32
buffer_read_uint64, via buffer_index_read: the pointer cast reads w
consecutive bytes of the cursor chunk — without any chunk rollover — and
the cursor then advances by w.  The ASSERT that w readable bytes remain
before the buffer write cursor is a precondition. -/
def buffer_read_scalar (b : Buffer) (i : BIndex) (w : Nat) : Nat × BIndex :=
  (leVal ((List.range w).map fun k => b.mem i.chunk (i.off + k)), buffer_index_add i w)

def buffer_read_uint32 (b : Buffer) (i : BIndex) : Nat × BIndex :=
  buffer_read_scalar b i 4

/-- A sequence of typed scalar writes starting at a cursor. -/
def writeScalars (b : Buffer) (i : BIndex) : List Scalar → Buffer × BIndex
  | [] => (b, i)
  | s :: rest =>
    let bi := buffer_write_scalar b i s
    writeScalars bi.1 bi.2 rest

/-- The corresponding sequence of typed reads, returning the values read. -/
def readScalars (b : Buffer) (i : BIndex) : List Scalar → List Nat
  | [] => []
  | s :: rest =>
    let vi := buffer_read_scalar b i s.width
    vi.1 :: readScalars b vi.2 rest

/-- Every read in the sequence stays inside the chunk its cursor points
into.  Because buffer_index_add does not roll a cursor that lands exactly on
a chunk end, a cursor at offset BUFFER_CHUNK_SIZE fails the condition for
any following scalar, so the predicate also rules out reads that would start
from such a denormalized cursor. -/
def readsOk (i : BIndex) : List Scalar → Prop
  | [] => True
  | s :: rest => i.off + s.width ≤ BUFFER_CHUNK_SIZE ∧ readsOk (buffer_index_add i s.width) rest

def readsOkDec : (l : List Scalar) → (i : BIndex) → Decidable (readsOk i l)
  | [], _ => .isTrue trivial
  | s :: rest, i =>
    have : Decidable (readsOk (buffer_index_add i s.width) rest) :=
      readsOkDec rest (buffer_index_add i s.width)
    inferInstanceAs (Decidable (_ ∧ _))

instance (i : BIndex) (l : List Scalar) : Decidable (readsOk i l) := readsOkDec l i

/-- The width sum of a scalar list. -/
def sumW (l : List Scalar) : Nat := (l.map Scalar.width).sum

/-! The Bolt session state machine (src/bolt/bolt_client.c). -/

/-- Modelled from the spec: the enum bolt_client_state lives in bolt_client.h,
which is not among the sources; §3 of the spec enumerates exactly these nine
session states. -/
inductive BoltState where
  | BS_NEGOTIATION
  | BS_AUTHENTICATION
  | BS_READY
  | BS_STREAMING
  | BS_TX_READY
  | BS_TX_STREAMING
  | BS_FAILED
  | BS_INTERRUPTED
  | BS_DEFUNCT
  deriving DecidableEq, Repr, Fintype

/-- Modelled from the spec: the enum bolt_structure_type lives in bolt.h,
which is not among the sources; §3 of the spec lists the twelve request kinds
and the four response kinds, and bolt_client.c uses these sixteen BST_
constants. -/
inductive bolt_structure_type where
  | BST_HELLO
  | BST_LOGON
  | BST_LOGOFF
  | BST_RUN
  | BST_PULL
  | BST_DISCARD
  | BST_BEGIN
  | BST_COMMIT
  | BST_ROLLBACK
  | BST_ROUTE
  | BST_RESET
  | BST_GOODBYE
  | BST_SUCCESS
  | BST_FAILURE
  | BST_IGNORED
  | BST_RECORD
  deriving DecidableEq, Repr, Fintype

open BoltState bolt_structure_type

/-- The client session.  Modelled from the spec: bolt_client_t lives in
bolt_client.h, which is not among the sources; §3 of the spec lists these
session attributes (the two host event-loop handles ctx and on_write carry no
session state and are outside the model).  Each chunked buffer carries its
own read and write cursors; write is the saved outbound cursor marking the
chunk-length slot of the message under composition. -/
structure BoltClient where
  socket : Nat
  state : BoltState
  ws : Bool
  reset : Bool
  processing : Bool
  shutdown : Bool
  read_buf : Buffer
  msg_buf : Buffer
  write_buf : Buffer
  write : BIndex

/-- bolt_change_negotiation_state: ASSERT request = HELLO, then SUCCESS to
AUTHENTICATION, FAILURE to DEFUNCT, anything else traps (none). -/
def bolt_change_negotiation_state (c : BoltClient) (req resp : bolt_structure_type) :
    Option BoltClient :=
  if req = BST_HELLO then
    match resp with
    | BST_SUCCESS => some { c with state := BS_AUTHENTICATION }
    | BST_FAILURE => some { c with state := BS_DEFUNCT }
    | _ => none
  else none

/-- bolt_change_authentication_state: ASSERT request = LOGON. -/
def bolt_change_authentication_state (c : BoltClient) (req resp : bolt_structure_type) :
    Option BoltClient :=
  if req = BST_LOGON then
    match resp with
    | BST_SUCCESS => some { c with state := BS_READY }
    | BST_FAILURE => some { c with state := BS_DEFUNCT }
    | _ => none
  else none

/-- bolt_change_ready_state. -/
def bolt_change_ready_state (c : BoltClient) (req resp : bolt_structure_type) :
    Option BoltClient :=
  match req with
  | BST_LOGOFF =>
    match resp with
    | BST_SUCCESS => some { c with state := BS_AUTHENTICATION }
    | BST_FAILURE => some { c with state := BS_FAILED }
    | _ => none
  | BST_RUN =>
    match resp with
    | BST_SUCCESS => some { c with state := BS_STREAMING }
    | BST_FAILURE => some { c with state := BS_FAILED }
    | _ => none
  | BST_BEGIN =>
    match resp with
    | BST_SUCCESS => some { c with state := BS_TX_READY }
    | BST_FAILURE => some { c with state := BS_FAILED }
    | _ => none
  | BST_ROUTE =>
    match resp with
    | BST_SUCCESS => some { c with state := BS_READY }
    | _ => none
  | BST_RESET => some { c with state := BS_READY }
  | BST_GOODBYE => some { c with state := BS_DEFUNCT }
  | _ => none

/-- bolt_change_streaming_state. -/
def bolt_change_streaming_state (c : BoltClient) (req resp : bolt_structure_type) :
    Option BoltClient :=
  match req with
  | BST_PULL =>
    match resp with
    | BST_SUCCESS => some { c with state := BS_READY }
    | BST_FAILURE => some { c with state := BS_FAILED }
    | _ => none
  | BST_DISCARD =>
    match resp with
    | BST_SUCCESS => some { c with state := BS_READY }
    | BST_FAILURE => some { c with state := BS_FAILED }
    | _ => none
  | BST_RESET => some { c with state := BS_READY }
  | BST_GOODBYE => some { c with state := BS_DEFUNCT }
  | _ => none

/-- bolt_change_txready_state. -/
def bolt_change_txready_state (c : BoltClient) (req resp : bolt_structure_type) :
    Option BoltClient :=
  match req with
  | BST_RUN =>
    match resp with
    | BST_SUCCESS => some { c with state := BS_TX_STREAMING }
    | BST_FAILURE => some { c with state := BS_FAILED }
    | _ => none
  | BST_COMMIT =>
    match resp with
    | BST_SUCCESS => some { c with state := BS_READY }
    | BST_FAILURE => some { c with state := BS_FAILED }
    | _ => none
  | BST_ROLLBACK =>
    match resp with
    | BST_SUCCESS => some { c with state := BS_READY }
    | BST_FAILURE => some { c with state := BS_FAILED }
    | _ => none
  | BST_RESET => some { c with state := BS_READY }
  | BST_GOODBYE => some { c with state := BS_DEFUNCT }
  | _ => none

/-- bolt_change_txstreaming_state. -/
def bolt_change_txstreaming_state (c : BoltClient) (req resp : bolt_structure_type) :
    Option BoltClient :=
  match req with
  | BST_RUN =>
    match resp with
    | BST_SUCCESS => some { c with state := BS_TX_STREAMING }
    | BST_FAILURE => some { c with state := BS_FAILED }
    | _ => none
  | BST_PULL =>
    match resp with
    | BST_SUCCESS => some { c with state := BS_TX_STREAMING }
    | BST_FAILURE => some { c with state := BS_FAILED }
    | _ => none
  | BST_COMMIT =>
    match resp with
    | BST_SUCCESS => some { c with state := BS_READY }
    | BST_FAILURE => some { c with state := BS_FAILED }
    | _ => none
  | BST_DISCARD =>
    match resp with
    | BST_SUCCESS => some { c with state := BS_TX_READY }
    | BST_FAILURE => some { c with state := BS_FAILED }
    | _ => none
  | BST_RESET => some { c with state := BS_READY }
  | BST_GOODBYE => some { c with state := BS_DEFUNCT }
  | _ => none

/-- bolt_change_failed_state. -/
def bolt_change_failed_state (c : BoltClient) (req resp : bolt_structure_type) :
    Option BoltClient :=
  match req with
  | BST_RUN =>
    match resp with
    | BST_IGNORED => some { c with state := BS_FAILED }
    | _ => none
  | BST_PULL =>
    match resp with
    | BST_IGNORED => some { c with state := BS_FAILED }
    | _ => none
  | BST_DISCARD =>
    match resp with
    | BST_IGNORED => some { c with state := BS_FAILED }
    | _ => none
  | BST_RESET => some { c with state := BS_READY }
  | BST_GOODBYE => some { c with state := BS_DEFUNCT }
  | _ => none

/-- bolt_change_interrupted_state. -/
def bolt_change_interrupted_state (c : BoltClient) (req resp : bolt_structure_type) :
    Option BoltClient :=
  match req with
  | BST_RUN =>
    match resp with
    | BST_IGNORED => some { c with state := BS_FAILED }
    | _ => none
  | BST_PULL =>
    match resp with
    | BST_IGNORED => some { c with state := BS_FAILED }
    | _ => none
  | BST_DISCARD =>
    match resp with
    | BST_IGNORED => some { c with state := BS_FAILED }
    | _ => none
  | BST_BEGIN =>
    match resp with
    | BST_IGNORED => some { c with state := BS_FAILED }
    | _ => none
  | BST_COMMIT =>
    match resp with
    | BST_IGNORED => some { c with state := BS_FAILED }
    | _ => none
  | BST_ROLLBACK =>
    match resp with
    | BST_IGNORED => some { c with state := BS_FAILED }
    | _ => none
  | BST_RESET =>
    match resp with
    | BST_SUCCESS => some { c with state := BS_READY }
    | BST_FAILURE => some { c with state := BS_DEFUNCT }
    | _ => none
  | BST_GOODBYE => some { c with state := BS_DEFUNCT }
  | _ => none

/-- bolt_change_client_state: a RECORD response returns immediately without
touching the session; otherwise dispatch on the current state, and the
DEFUNCT default arm traps. -/
def bolt_change_client_state (c : BoltClient) (req resp : bolt_structure_type) :
    Option BoltClient :=
  if resp = BST_RECORD then some c
  else
    match c.state with
    | BS_NEGOTIATION => bolt_change_negotiation_state c req resp
    | BS_AUTHENTICATION => bolt_change_authentication_state c req resp
    | BS_READY => bolt_change_ready_state c req resp
    | BS_STREAMING => bolt_change_streaming_state c req resp
    | BS_TX_READY => bolt_change_txready_state c req resp
    | BS_TX_STREAMING => bolt_change_txstreaming_state c req resp
    | BS_FAILED => bolt_change_failed_state c req resp
    | BS_INTERRUPTED => bolt_change_interrupted_state c req resp
    | BS_DEFUNCT => none

/-! Message framing and the send path (src/bolt/bolt_client.c). -/

/-- Write data through the client's saved outbound cursor (the C passes
&client->write into the buffer writer, which may also grow write_buf). -/
def clientWriteAtWrite (c : BoltClient) (data : List Nat) : BoltClient :=
  let bw := buffer_write c.write_buf c.write data
  { c with write_buf := bw.1, write := bw.2 }

/-- Write data at a buffer's own write cursor (the C passes
&buf->write). -/
def bufAppend (b : Buffer) (data : List Nat) : Buffer :=
  let bw := buffer_write b b.write data
  { bw.1 with write := bw.2 }

/-- Modelled from the spec: the PackStream tag bytes live in bolt.h, which is
not among the sources; §6 of the spec has the reply carry a tag byte
identifying the message kind inside a structure marker.  These are the Bolt
5 wire tags. -/
def tagByte : bolt_structure_type → Nat
  | BST_HELLO => 0x01
  | BST_GOODBYE => 0x02
  | BST_RESET => 0x0F
  | BST_RUN => 0x10
  | BST_BEGIN => 0x11
  | BST_COMMIT => 0x12
  | BST_ROLLBACK => 0x13
  | BST_DISCARD => 0x2F
  | BST_PULL => 0x3F
  | BST_ROUTE => 0x66
  | BST_LOGON => 0x6A
  | BST_LOGOFF => 0x6B
  | BST_SUCCESS => 0x70
  | BST_RECORD => 0x71
  | BST_IGNORED => 0x7E
  | BST_FAILURE => 0x7F

/-- Modelled from the spec: bolt_reply_structure lives in bolt.c, which is
not among the sources; §4.5 appends a structure header with the response tag
and the field count into the write buffer, and §6 delegates the wire format
to the PackStream codec: a tiny-structure marker byte 0xB0 + field count,
then the tag byte. -/
def bolt_reply_structure (c : BoltClient) (tag : bolt_structure_type) (size : Nat) :
    BoltClient :=
  let b := bufAppend c.write_buf [0xB0 + size % 16, tagByte tag]
  { c with write_buf := b }

/-- Modelled from the spec: bolt_reply_map lives in bolt.c, which is not
among the sources; §6 delegates to the PackStream codec, whose tiny-map
marker is the byte 0xA0 + entry count. -/
def bolt_reply_map (c : BoltClient) (n : Nat) : BoltClient :=
  let b := bufAppend c.write_buf [0xA0 + n % 16]
  { c with write_buf := b }

/-- bolt_client_end_message: n = diff(write_buf.write, write) - 2 in uint16
arithmetic; under WebSocket mode write the frame header 0x82 and the single
length byte n + 2 (truncated to uint8) through the saved cursor and take 2
off n; backfill htons(n) into the length slot; append the two terminator
bytes; save the new message start; reserve the next length slot (and frame
header slot under WebSocket mode). -/
def bolt_client_end_message (c : BoltClient) : BoltClient :=
  let n0 := (buffer_index_diff c.write_buf.write c.write + 65534) % 65536
  let step :=
    if c.ws then
      (clientWriteAtWrite (clientWriteAtWrite c (leBytes 1 0x82)) (leBytes 1 (n0 + 2)),
        (n0 + 65534) % 65536)
    else (c, n0)
  let c1 := step.1
  let c2 := clientWriteAtWrite c1 (leBytes 2 (htons step.2))
  let c3 := { c2 with write_buf := bufAppend c2.write_buf (leBytes 1 0) }
  let c4 := { c3 with write_buf := bufAppend c3.write_buf (leBytes 1 0) }
  let c5 := { c4 with write := c4.write_buf.write }
  let c6 := { c5 with write_buf := bufAppend c5.write_buf (leBytes 2 0) }
  if c.ws then { c6 with write_buf := bufAppend c6.write_buf (leBytes 2 0) } else c6

/-- The flush block the C repeats inside the RESET fast path of
bolt_client_send: n = diff(write_buf.write, write) - 2 in uint16 arithmetic,
backfill htons(n) through the saved cursor, append the two terminator
bytes, and drain the buffer from its start up to write_buf.write.  Returns
the session and the drained byte stream. -/
def resetFlush (c : BoltClient) : BoltClient × List Nat :=
  let n := (buffer_index_diff c.write_buf.write c.write + 65534) % 65536
  let c2 := clientWriteAtWrite c (leBytes 2 (htons n))
  let c3 := { c2 with write_buf := bufAppend c2.write_buf (leBytes 1 0) }
  let c4 := { c3 with write_buf := bufAppend c3.write_buf (leBytes 1 0) }
  (c4, buffer_socket_write c4.write_buf c4.write_buf.write)

/-- The cursor rewind the C repeats around the RESET fast path:
buffer_index(&write_buf, &client->write, 0) and
buffer_index(&write_buf, &client->write_buf.write, 2). -/
def resetRewind (c : BoltClient) : BoltClient :=
  { c with
    write := buffer_index 0,
    write_buf := { c.write_buf with write := buffer_index 2 } }

/-- bolt_client_send, returning the new session and the byte stream pushed
to the socket.  On the RESET fast path the composed acknowledgment messages
are built from buffer start and drained (the C writes the flush block out
twice in the FAILED arm and once in the other; here it is the shared
resetFlush); otherwise the pending bytes up to the saved cursor are drained
and the cursors rewound. -/
def bolt_client_send (c : BoltClient) : BoltClient × List Nat :=
  if c.reset then
    let c0 := resetRewind c
    if c0.state ≠ BS_FAILED then
      let p := resetFlush (bolt_reply_map (bolt_reply_structure c0 BST_SUCCESS 1) 0)
      ({ resetRewind p.1 with reset := false }, p.2)
    else
      let p1 := resetFlush (bolt_reply_structure c0 BST_IGNORED 0)
      let p2 := resetFlush (bolt_reply_map (bolt_reply_structure (resetRewind p1.1)
        BST_SUCCESS 1) 0)
      ({ resetRewind p2.1 with
          reset := false,
          state := BS_READY }, p1.2 ++ p2.2)
  else
    let out := buffer_socket_write c.write_buf c.write
    let c1 : BoltClient :=
      { c with
        write := buffer_index 0,
        write_buf := { c.write_buf with write := buffer_index 0 } }
    let c2 := { c1 with write_buf := bufAppend c1.write_buf (leBytes 2 0) }
    (if c.ws then { c2 with write_buf := bufAppend c2.write_buf (leBytes 2 0) } else c2, out)

/-- A single WebSocket length byte validly denotes a frame payload length
per RFC 6455 §5.2 exactly when it is at most 125 and equals that length
(126 and 127 instead announce the 16- and 64-bit extended encodings). -/
def wsLenByteOk (b payload : Nat) : Prop := b ≤ 125 ∧ b = payload

instance (b payload : Nat) : Decidable (wsLenByteOk b payload) :=
  inferInstanceAs (Decidable (_ ∧ _))

/-- The transition table of §4.4 of the spec, written from the spec words for
the refinement comparison: one arm per table row (a * response in the table
is a wildcard arm), every absent triple is none.  RECORD responses are
handled by the claims separately, so the table is only consulted at
non-RECORD responses. -/
def specTransition : BoltState → bolt_structure_type → bolt_structure_type → Option BoltState
  | BS_NEGOTIATION, BST_HELLO, BST_SUCCESS => some BS_AUTHENTICATION
  | BS_NEGOTIATION, BST_HELLO, BST_FAILURE => some BS_DEFUNCT
  | BS_AUTHENTICATION, BST_LOGON, BST_SUCCESS => some BS_READY
  | BS_AUTHENTICATION, BST_LOGON, BST_FAILURE => some BS_DEFUNCT
  | BS_READY, BST_LOGOFF, BST_SUCCESS => some BS_AUTHENTICATION
  | BS_READY, BST_LOGOFF, BST_FAILURE => some BS_FAILED
  | BS_READY, BST_RUN, BST_SUCCESS => some BS_STREAMING
  | BS_READY, BST_RUN, BST_FAILURE => some BS_FAILED
  | BS_READY, BST_BEGIN, BST_SUCCESS => some BS_TX_READY
  | BS_READY, BST_BEGIN, BST_FAILURE => some BS_FAILED
  | BS_READY, BST_ROUTE, BST_SUCCESS => some BS_READY
  | BS_READY, BST_RESET, _ => some BS_READY
  | BS_READY, BST_GOODBYE, _ => some BS_DEFUNCT
  | BS_STREAMING, BST_PULL, BST_SUCCESS => some BS_READY
  | BS_STREAMING, BST_PULL, BST_FAILURE => some BS_FAILED
  | BS_STREAMING, BST_DISCARD, BST_SUCCESS => some BS_READY
  | BS_STREAMING, BST_DISCARD, BST_FAILURE => some BS_FAILED
  | BS_STREAMING, BST_RESET, _ => some BS_READY
  | BS_STREAMING, BST_GOODBYE, _ => some BS_DEFUNCT
  | BS_TX_READY, BST_RUN, BST_SUCCESS => some BS_TX_STREAMING
  | BS_TX_READY, BST_RUN, BST_FAILURE => some BS_FAILED
  | BS_TX_READY, BST_COMMIT, BST_SUCCESS => some BS_READY
  | BS_TX_READY, BST_COMMIT, BST_FAILURE => some BS_FAILED
  | BS_TX_READY, BST_ROLLBACK, BST_SUCCESS => some BS_READY
  | BS_TX_READY, BST_ROLLBACK, BST_FAILURE => some BS_FAILED
  | BS_TX_READY, BST_RESET, _ => some BS_READY
  | BS_TX_READY, BST_GOODBYE, _ => some BS_DEFUNCT
  | BS_TX_STREAMING, BST_RUN, BST_SUCCESS => some BS_TX_STREAMING
  | BS_TX_STREAMING, BST_RUN, BST_FAILURE => some BS_FAILED
  | BS_TX_STREAMING, BST_PULL, BST_SUCCESS => some BS_TX_STREAMING
  | BS_TX_STREAMING, BST_PULL, BST_FAILURE => some BS_FAILED
  | BS_TX_STREAMING, BST_DISCARD, BST_SUCCESS => some BS_TX_READY
  | BS_TX_STREAMING, BST_DISCARD, BST_FAILURE => some BS_FAILED
  | BS_TX_STREAMING, BST_COMMIT, BST_SUCCESS => some BS_READY
  | BS_TX_STREAMING, BST_COMMIT, BST_FAILURE => some BS_FAILED
  | BS_TX_STREAMING, BST_RESET, _ => some BS_READY
  | BS_TX_STREAMING, BST_GOODBYE, _ => some BS_DEFUNCT
  | BS_FAILED, BST_RUN, BST_IGNORED => some BS_FAILED
  | BS_FAILED, BST_PULL, BST_IGNORED => some BS_FAILED
  | BS_FAILED, BST_DISCARD, BST_IGNORED => some BS_FAILED
  | BS_FAILED, BST_RESET, _ => some BS_READY
  | BS_FAILED, BST_GOODBYE, _ => some BS_DEFUNCT
  | BS_INTERRUPTED, BST_RUN, BST_IGNORED => some BS_FAILED
  | BS_INTERRUPTED, BST_PULL, BST_IGNORED => some BS_FAILED
  | BS_INTERRUPTED, BST_DISCARD, BST_IGNORED => some BS_FAILED
  | BS_INTERRUPTED, BST_BEGIN, BST_IGNORED => some BS_FAILED
  | BS_INTERRUPTED, BST_COMMIT, BST_IGNORED => some BS_FAILED
  | BS_INTERRUPTED, BST_ROLLBACK, BST_IGNORED => some BS_FAILED
  | BS_INTERRUPTED, BST_RESET, BST_SUCCESS => some BS_READY
  | BS_INTERRUPTED, BST_RESET, BST_FAILURE => some BS_DEFUNCT
  | BS_INTERRUPTED, BST_GOODBYE, _ => some BS_DEFUNCT
  | _, _, _ => none

/-- The state projection of bolt_change_client_state, derived from the code
above (proved equal in bolt_change_client_state_eq): the same dispatch and
arms with the client record stripped away. -/
def nextStateFn (s : BoltState) (req resp : bolt_structure_type) : Option BoltState :=
  if resp = BST_RECORD then some s
  else
    match s, req, resp with
    | BS_NEGOTIATION, BST_HELLO, BST_SUCCESS => some BS_AUTHENTICATION
    | BS_NEGOTIATION, BST_HELLO, BST_FAILURE => some BS_DEFUNCT
    | BS_AUTHENTICATION, BST_LOGON, BST_SUCCESS => some BS_READY
    | BS_AUTHENTICATION, BST_LOGON, BST_FAILURE => some BS_DEFUNCT
    | BS_READY, BST_LOGOFF, BST_SUCCESS => some BS_AUTHENTICATION
    | BS_READY, BST_LOGOFF, BST_FAILURE => some BS_FAILED
    | BS_READY, BST_RUN, BST_SUCCESS => some BS_STREAMING
    | BS_READY, BST_RUN, BST_FAILURE => some BS_FAILED
    | BS_READY, BST_BEGIN, BST_SUCCESS => some BS_TX_READY
    | BS_READY, BST_BEGIN, BST_FAILURE => some BS_FAILED
    | BS_READY, BST_ROUTE, BST_SUCCESS => some BS_READY
    | BS_READY, BST_RESET, _ => some BS_READY
    | BS_READY, BST_GOODBYE, _ => some BS_DEFUNCT
    | BS_STREAMING, BST_PULL, BST_SUCCESS => some BS_READY
    | BS_STREAMING, BST_PULL, BST_FAILURE => some BS_FAILED
    | BS_STREAMING, BST_DISCARD, BST_SUCCESS => some BS_READY
    | BS_STREAMING, BST_DISCARD, BST_FAILURE => some BS_FAILED
    | BS_STREAMING, BST_RESET, _ => some BS_READY
    | BS_STREAMING, BST_GOODBYE, _ => some BS_DEFUNCT
    | BS_TX_READY, BST_RUN, BST_SUCCESS => some BS_TX_STREAMING
    | BS_TX_READY, BST_RUN, BST_FAILURE => some BS_FAILED
    | BS_TX_READY, BST_COMMIT, BST_SUCCESS => some BS_READY
    | BS_TX_READY, BST_COMMIT, BST_FAILURE => some BS_FAILED
    | BS_TX_READY, BST_ROLLBACK, BST_SUCCESS => some BS_READY
    | BS_TX_READY, BST_ROLLBACK, BST_FAILURE => some BS_FAILED
    | BS_TX_READY, BST_RESET, _ => some BS_READY
    | BS_TX_READY, BST_GOODBYE, _ => some BS_DEFUNCT
    | BS_TX_STREAMING, BST_RUN, BST_SUCCESS => some BS_TX_STREAMING
    | BS_TX_STREAMING, BST_RUN, BST_FAILURE => some BS_FAILED
    | BS_TX_STREAMING, BST_PULL, BST_SUCCESS => some BS_TX_STREAMING
    | BS_TX_STREAMING, BST_PULL, BST_FAILURE => some BS_FAILED
    | BS_TX_STREAMING, BST_DISCARD, BST_SUCCESS => some BS_TX_READY
    | BS_TX_STREAMING, BST_DISCARD, BST_FAILURE => some BS_FAILED
    | BS_TX_STREAMING, BST_COMMIT, BST_SUCCESS => some BS_READY
    | BS_TX_STREAMING, BST_COMMIT, BST_FAILURE => some BS_FAILED
    | BS_TX_STREAMING, BST_RESET, _ => some BS_READY
    | BS_TX_STREAMING, BST_GOODBYE, _ => some BS_DEFUNCT
    | BS_FAILED, BST_RUN, BST_IGNORED => some BS_FAILED
    | BS_FAILED, BST_PULL, BST_IGNORED => some BS_FAILED
    | BS_FAILED, BST_DISCARD, BST_IGNORED => some BS_FAILED
    | BS_FAILED, BST_RESET, _ => some BS_READY
    | BS_FAILED, BST_GOODBYE, _ => some BS_DEFUNCT
    | BS_INTERRUPTED, BST_RUN, BST_IGNORED => some BS_FAILED
    | BS_INTERRUPTED, BST_PULL, BST_IGNORED => some BS_FAILED
    | BS_INTERRUPTED, BST_DISCARD, BST_IGNORED => some BS_FAILED
    | BS_INTERRUPTED, BST_BEGIN, BST_IGNORED => some BS_FAILED
    | BS_INTERRUPTED, BST_COMMIT, BST_IGNORED => some BS_FAILED
    | BS_INTERRUPTED, BST_ROLLBACK, BST_IGNORED => some BS_FAILED
    | BS_INTERRUPTED, BST_RESET, BST_SUCCESS => some BS_READY
    | BS_INTERRUPTED, BST_RESET, BST_FAILURE => some BS_DEFUNCT
    | BS_INTERRUPTED, BST_GOODBYE, _ => some BS_DEFUNCT
    | _, _, _ => none

/-! Concrete instances used by the witnesses and counterexamples, and the
bulk-copy specification predicate. -/

/-- A concrete all-zero buffer used by the concrete instantiations below. -/
def zeroBuffer : Buffer := ⟨fun _ _ => 0, 1, ⟨0, 0⟩, ⟨0, 0⟩⟩

/-- A concrete client session in the initial NEGOTIATION state. -/
def cexClient : BoltClient :=
  ⟨1, BS_NEGOTIATION, false, false, false, false, zeroBuffer, zeroBuffer, zeroBuffer, ⟨0, 0⟩⟩

/-- The concrete session after a HELLO/SUCCESS transition. -/
def cexClient2 : BoltClient := { cexClient with state := BS_AUTHENTICATION }

/-- The concrete scalar sequence of the C3 witness. -/
def cexScalars : List Scalar := [.u8 7, .u32 0x01020304, .u16 999]

/-- A concrete WebSocket-mode session whose pending message makes the frame
payload 126 bytes, one past what a single length byte can denote. -/
def cex6 : BoltClient :=
  ⟨1, BS_READY, true, false, false, false, zeroBuffer, zeroBuffer,
    ⟨fun _ _ => 0, 1, ⟨0, 0⟩, ⟨0, 126⟩⟩, ⟨0, 0⟩⟩

/-- A concrete WebSocket-mode session with a 6-byte pending frame payload. -/
def cexW6 : BoltClient :=
  ⟨1, BS_READY, true, false, false, false, zeroBuffer, zeroBuffer,
    ⟨fun _ _ => 0, 1, ⟨0, 0⟩, ⟨0, 10⟩⟩, ⟨0, 0⟩⟩

/-- The specification of one bulk copy: cursor advance and wellformedness,
bytes copied, bytes elsewhere untouched. -/
def BRSpec (srcB : Buffer) (si : BIndex) (dstB : Buffer) (di : BIndex) (size : Nat)
    (r : BIndex × Buffer × BIndex) : Prop :=
  r.1.pos = si.pos + size ∧
  r.2.2.pos = di.pos + size ∧
  r.1.off ≤ BUFFER_CHUNK_SIZE ∧
  r.2.2.off ≤ BUFFER_CHUNK_SIZE ∧
  (∀ k, k < size → byteAt r.2.1 (di.pos + k) = byteAt srcB (si.pos + k)) ∧
  (∀ p, p < di.pos ∨ di.pos + size ≤ p → byteAt r.2.1 p = byteAt dstB p)

/-- A concrete source buffer with distinguishable bytes and two chunks of
readable data. -/
def cexSrc : Buffer := ⟨fun c o => (c + o) % 256, 2, ⟨0, 0⟩, ⟨1, 100⟩⟩

/-- A concrete session in READY state with the reset flag raised. -/
def cexReset : BoltClient :=
  ⟨1, BS_READY, false, true, false, false, zeroBuffer, zeroBuffer, zeroBuffer, ⟨0, 0⟩⟩

/-- The client transition is exactly the state-level transition applied to
the state field, leaving the rest of the record alone. -/
theorem bolt_change_client_state_eq (c : BoltClient) (req resp : bolt_structure_type) :
    bolt_change_client_state c req resp =
      Option.map (fun s => { c with state := s }) (nextStateFn c.state req resp) := by
  obtain ⟨sock, st, ws, rst, proc, shut, rb, mb, wb, w⟩ := c
  cases st <;> cases req <;> cases resp <;> rfl

/-! Basic lemmas about the buffer primitives. -/

theorem chunk_size_eq : BUFFER_CHUNK_SIZE = 4096 := rfl

theorem BIndex.pos_mk (c o : Nat) : BIndex.pos ⟨c, o⟩ = c * BUFFER_CHUNK_SIZE + o := rfl

theorem List.getD_drop_zero (l : List Nat) (n m : Nat) :
    (l.drop n).getD m 0 = l.getD (n + m) 0 := by
  simp [List.getD, List.getElem?_drop]

theorem memcpy_inside (m : Mem) (c o : Nat) (src : Nat → Nat) (len k : Nat)
    (hk : k < len) : memcpy m c o src len c (o + k) = src k := by
  unfold memcpy
  rw [if_pos (⟨rfl, Nat.le_add_right o k, by omega⟩ : c = c ∧ o ≤ o + k ∧ o + k < o + len)]
  rw [Nat.add_sub_cancel_left]

theorem memcpy_outside (m : Mem) (c o : Nat) (src : Nat → Nat) (len : Nat)
    (c2 o2 : Nat) (h : c2 ≠ c ∨ o2 < o ∨ o + len ≤ o2) :
    memcpy m c o src len c2 o2 = m c2 o2 := by
  simp only [memcpy]
  rw [if_neg (by omega)]

theorem buffer_index_add_small (i : BIndex) (n : Nat)
    (h : i.off + n ≤ BUFFER_CHUNK_SIZE) : buffer_index_add i n = ⟨i.chunk, i.off + n⟩ := by
  have hc := chunk_size_eq
  simp only [buffer_index_add]
  rw [Nat.mod_eq_of_lt (by omega)]
  rw [if_neg (by omega)]

/-- A byte at a normalized coordinate pair, through the absolute-position view. -/
theorem byteAt_mk (b : Buffer) (c o : Nat) (h : o < BUFFER_CHUNK_SIZE) :
    byteAt b (c * BUFFER_CHUNK_SIZE + o) = b.mem c o := by
  have h1 : (c * BUFFER_CHUNK_SIZE + o) / BUFFER_CHUNK_SIZE = c := by
    rw [Nat.mul_comm, Nat.mul_add_div (by rw [chunk_size_eq]; omega)]
    simp [Nat.div_eq_of_lt h]
  have h2 : (c * BUFFER_CHUNK_SIZE + o) % BUFFER_CHUNK_SIZE = o := by
    rw [Nat.mul_comm, Nat.mul_add_mod, Nat.mod_eq_of_lt h]
  rw [byteAt, h1, h2]

/-- Manual conditional equations for buffer_write (the function is defined by
well-founded recursion, so proofs rewrite with these instead of unfolding). -/
theorem buffer_write_of_le {b : Buffer} {i : BIndex} {data : List Nat}
    (h : i.off + data.length ≤ BUFFER_CHUNK_SIZE) :
    buffer_write b i data =
      ({ b with mem := memcpy b.mem i.chunk i.off (fun k => data.getD k 0) data.length },
        buffer_index_add i data.length) := by
  rw [buffer_write.eq_def]
  rw [dif_neg (by omega)]

theorem buffer_write_of_gt {b : Buffer} {i : BIndex} {data : List Nat}
    (h : i.off + data.length > BUFFER_CHUNK_SIZE) :
    buffer_write b i data =
      buffer_write
        (if b.nchunks = i.chunk + 1 then
          { b with
            mem := memcpy b.mem i.chunk i.off (fun k => data.getD k 0)
              (BUFFER_CHUNK_SIZE - i.off),
            nchunks := b.nchunks + 1 }
        else
          { b with
            mem := memcpy b.mem i.chunk i.off (fun k => data.getD k 0)
              (BUFFER_CHUNK_SIZE - i.off) })
        ⟨i.chunk + 1, 0⟩ (data.drop (BUFFER_CHUNK_SIZE - i.off)) := by
  rw [buffer_write.eq_def]
  rw [dif_pos h]

/-- Full correctness of buffer_write for a well-formed cursor: the cursor
advances by the byte count (possibly landing denormalized at offset exactly
BUFFER_CHUNK_SIZE), the data bytes land at the normalized coordinates of the
successive absolute positions, all other memory (including every byte past a
chunk end) is untouched, and the buffer read/write cursor fields are
untouched. -/
theorem buffer_write_spec (b : Buffer) (i : BIndex) (data : List Nat)
    (hoff : i.off ≤ BUFFER_CHUNK_SIZE) :
    (buffer_write b i data).2.pos = i.pos + data.length ∧
    (buffer_write b i data).2.off ≤ BUFFER_CHUNK_SIZE ∧
    (∀ k, k < data.length → byteAt (buffer_write b i data).1 (i.pos + k) = data.getD k 0) ∧
    (∀ c2 o2, BUFFER_CHUNK_SIZE ≤ o2 ∨ c2 * BUFFER_CHUNK_SIZE + o2 < i.pos ∨
        i.pos + data.length ≤ c2 * BUFFER_CHUNK_SIZE + o2 →
      (buffer_write b i data).1.mem c2 o2 = b.mem c2 o2) ∧
    (buffer_write b i data).1.read = b.read ∧
    (buffer_write b i data).1.write = b.write ∧
    b.nchunks ≤ (buffer_write b i data).1.nchunks := by
  induction b, i, data using buffer_write.induct with
  | case1 b i data h fcs b1 i1 b2 ih =>
    have hfcs : fcs = BUFFER_CHUNK_SIZE - i.off := rfl
    have hstep : buffer_write b i data = buffer_write b2 i1 (data.drop fcs) := by
      rw [buffer_write.eq_def]
      rw [dif_pos h]
      rfl
    have hpos1 : i1.pos = i.pos + fcs := by
      simp only [i1, BIndex.pos_mk, BIndex.pos, hfcs, chunk_size_eq] at *
      omega
    have hb2mem : b2.mem = memcpy b.mem i.chunk i.off (fun k => data.getD k 0) fcs := by
      simp only [b2, b1]
      split <;> rfl
    have hb2read : b2.read = b.read := by
      simp only [b2, b1]
      split <;> rfl
    have hb2write : b2.write = b.write := by
      simp only [b2, b1]
      split <;> rfl
    have hb2n : b.nchunks ≤ b2.nchunks := by
      simp only [b2, b1]
      split <;> simp
    rw [hstep]
    have hi1 : i1.off ≤ BUFFER_CHUNK_SIZE := by
      simp only [i1]
      exact Nat.zero_le _
    obtain ⟨ihpos, ihoff, ihbytes, ihframe, ihread, ihwrite, ihn⟩ := ih hi1
    have hcs := chunk_size_eq
    have hlen : fcs ≤ data.length := by omega
    refine ⟨?_, ihoff, ?_, ?_, ?_, ?_, ?_⟩
    · rw [ihpos, hpos1]
      simp only [List.length_drop]
      omega
    · intro k hk
      by_cases hkf : k < fcs
      · -- the byte lies in the first memcpy region, untouched by the recursion
        have hfr := ihframe i.chunk (i.off + k) (by
          right; left
          rw [hpos1]
          simp only [BIndex.pos, chunk_size_eq] at *
          omega)
        have hnorm : i.off + k < BUFFER_CHUNK_SIZE := by omega
        rw [show i.pos + k = i.chunk * BUFFER_CHUNK_SIZE + (i.off + k) from by
          rw [BIndex.pos]; omega]
        rw [byteAt_mk _ _ _ hnorm, hfr, hb2mem, memcpy_inside _ _ _ _ _ _ hkf]
      · have hk2 : k - fcs < (data.drop fcs).length := by
          simp only [List.length_drop]; omega
        have hby := ihbytes (k - fcs) hk2
        rw [hpos1] at hby
        rw [show i.pos + fcs + (k - fcs) = i.pos + k from by omega] at hby
        rw [hby, List.getD_drop_zero]
        congr 1
        omega
    · intro c2 o2 hout
      have hfr := ihframe c2 o2 (by
        rcases hout with h1 | h2 | h3
        · left; exact h1
        · right; left; omega
        · right; right
          rw [hpos1]
          simp only [List.length_drop]
          omega)
      rw [hfr, hb2mem]
      rcases hout with h1 | h2 | h3
      · exact memcpy_outside _ _ _ _ _ _ _ (by
          by_cases hcc : c2 = i.chunk
          · subst hcc; right; right; omega
          · left; exact hcc)
      · exact memcpy_outside _ _ _ _ _ _ _ (by
          by_cases hcc : c2 = i.chunk
          · subst hcc
            right; left
            simp only [BIndex.pos, chunk_size_eq] at *
            omega
          · left; exact hcc)
      · exact memcpy_outside _ _ _ _ _ _ _ (by
          by_cases hcc : c2 = i.chunk
          · subst hcc
            right; right
            simp only [BIndex.pos, chunk_size_eq] at *
            omega
          · left; exact hcc)
    · rw [ihread, hb2read]
    · rw [ihwrite, hb2write]
    · exact Nat.le_trans hb2n ihn
  | case2 b i data h =>
    have hcs := chunk_size_eq
    have hle : i.off + data.length ≤ BUFFER_CHUNK_SIZE := by omega
    rw [buffer_write_of_le hle]
    rw [buffer_index_add_small _ _ hle]
    refine ⟨by rw [BIndex.pos_mk, BIndex.pos]; omega, hle, ?_, ?_, rfl, rfl, Nat.le_refl _⟩
    · intro k hk
      have hnorm : i.off + k < BUFFER_CHUNK_SIZE := by omega
      rw [show i.pos + k = i.chunk * BUFFER_CHUNK_SIZE + (i.off + k) from by
        rw [BIndex.pos]; omega]
      rw [byteAt_mk _ _ _ hnorm]
      exact memcpy_inside b.mem i.chunk i.off (fun j => data.getD j 0) data.length k hk
    · intro c2 o2 hout
      show memcpy b.mem i.chunk i.off (fun j => data.getD j 0) data.length c2 o2 = b.mem c2 o2
      apply memcpy_outside
      by_cases hcc : c2 = i.chunk
      · subst hcc
        rw [BIndex.pos] at hout
        omega
      · left
        exact hcc

/-! Scalar round-trip lemmas. -/

theorem leBytes_length (w v : Nat) : (leBytes w v).length = w := by
  induction w generalizing v with
  | zero => rfl
  | succ w ih => simp [leBytes, ih]

theorem leVal_leBytes (w v : Nat) : leVal (leBytes w v) = v % 256 ^ w := by
  induction w generalizing v with
  | zero => simp [leBytes, leVal, Nat.mod_one]
  | succ w ih =>
    simp only [leBytes, leVal, ih]
    have hdd : v / 256 / 256 ^ w = v / (256 * 256 ^ w) := Nat.div_div_eq_div_mul v 256 (256 ^ w)
    have h3 := Nat.div_add_mod (v / 256) (256 ^ w)
    rw [hdd] at h3
    have h4 : 256 * (256 ^ w * (v / (256 * 256 ^ w))) + v % (256 * 256 ^ w) = v := by
      rw [← Nat.mul_assoc]
      exact Nat.div_add_mod v (256 * 256 ^ w)
    rw [pow_succ, mul_comm (256 ^ w) 256]
    omega

theorem range_map_getD (L : List Nat) (f : Nat → Nat)
    (h : ∀ k, k < L.length → f k = L.getD k 0) : (List.range L.length).map f = L := by
  induction L generalizing f with
  | nil => rfl
  | cons a t ih =>
    rw [List.length_cons, List.range_succ_eq_map, List.map_cons, List.map_map]
    refine congrArg₂ List.cons ?_ ?_
    · simpa using h 0 (by simp)
    · exact ih (f ∘ Nat.succ) (fun k hk => by simpa using h (k + 1) (by simp [hk]))

theorem scalar_width_pos (s : Scalar) : 0 < s.width := by
  cases s <;> simp [Scalar.width]

theorem scalar_width_le (s : Scalar) : s.width ≤ 8 := by
  cases s <;> simp [Scalar.width]

/-- Under readsOk every access stays inside the starting chunk, so the width
sum is bounded by the remaining room of that chunk. -/
theorem readsOk_sum (l : List Scalar) : ∀ i : BIndex, readsOk i l →
    l = [] ∨ i.off + sumW l ≤ BUFFER_CHUNK_SIZE := by
  induction l with
  | nil => intro i _; left; rfl
  | cons s t ih =>
    intro i h
    obtain ⟨h1, h2⟩ := h
    right
    rw [buffer_index_add_small i s.width h1] at h2
    rcases ih _ h2 with ht | ht
    · subst ht
      simp [sumW]
      omega
    · simp only [sumW, List.map_cons, List.sum_cons]
      simp only [sumW] at ht
      omega

/-- Writing a scalar sequence that satisfies readsOk and reading it back at
the original cursor returns exactly the written values reduced to their
widths; moreover the write cursor lands at offset + width sum inside the
same chunk, and no memory outside that offset range of that chunk changes. -/
theorem writeScalars_readScalars (l : List Scalar) : ∀ (b : Buffer) (i : BIndex),
    readsOk i l →
    readScalars (writeScalars b i l).1 i l = l.map (fun s => s.val % 256 ^ s.width) ∧
    (writeScalars b i l).2 = ⟨i.chunk, i.off + sumW l⟩ ∧
    (∀ c2 o2, c2 ≠ i.chunk ∨ o2 < i.off ∨ i.off + sumW l ≤ o2 →
      (writeScalars b i l).1.mem c2 o2 = b.mem c2 o2) := by
  induction l with
  | nil =>
    intro b i _
    refine ⟨rfl, ?_, fun c2 o2 _ => rfl⟩
    simp [writeScalars, sumW]
  | cons s t ih =>
    intro b i h
    obtain ⟨h1, h2⟩ := h
    have hadd : buffer_index_add i s.width = ⟨i.chunk, i.off + s.width⟩ :=
      buffer_index_add_small i s.width h1
    rw [hadd] at h2
    have hlen : (leBytes s.width s.val).length = s.width := leBytes_length _ _
    have hwr : buffer_write b i (leBytes s.width s.val) =
        ({ b with
            mem := memcpy b.mem i.chunk i.off (fun k => (leBytes s.width s.val).getD k 0)
              (leBytes s.width s.val).length },
          buffer_index_add i (leBytes s.width s.val).length) :=
      buffer_write_of_le (by rw [hlen]; exact h1)
    have hws : writeScalars b i (s :: t) =
        writeScalars
          { b with
            mem := memcpy b.mem i.chunk i.off (fun k => (leBytes s.width s.val).getD k 0)
              s.width }
          ⟨i.chunk, i.off + s.width⟩ t := by
      simp only [writeScalars, buffer_write_scalar, hwr, hlen, hadd]
    set b1 : Buffer :=
      { b with
        mem := memcpy b.mem i.chunk i.off (fun k => (leBytes s.width s.val).getD k 0)
          s.width } with hb1
    obtain ⟨ihread, ihcur, ihframe⟩ := ih b1 ⟨i.chunk, i.off + s.width⟩ h2
    refine ⟨?_, ?_, ?_⟩
    · -- the head read returns the head value, the tail reads follow from ih
      simp only [readScalars, buffer_read_scalar, hws, hadd, List.map_cons]
      refine congrArg₂ _ ?_ ihread
      have hmem : ∀ k, k < s.width →
          (writeScalars b1 ⟨i.chunk, i.off + s.width⟩ t).1.mem i.chunk (i.off + k)
            = (leBytes s.width s.val).getD k 0 := by
        intro k hk
        rw [ihframe i.chunk (i.off + k) (by right; left; simp; omega)]
        show memcpy b.mem i.chunk i.off (fun j => (leBytes s.width s.val).getD j 0) s.width
            i.chunk (i.off + k) = (leBytes s.width s.val).getD k 0
        exact memcpy_inside b.mem i.chunk i.off _ s.width k hk
      have hrm := range_map_getD (leBytes s.width s.val)
        (fun k => (writeScalars b1 ⟨i.chunk, i.off + s.width⟩ t).1.mem i.chunk (i.off + k))
        (fun k hk => hmem k (by rwa [hlen] at hk))
      rw [hlen] at hrm
      rw [hrm]
      exact leVal_leBytes s.width s.val
    · rw [hws, ihcur]
      simp [sumW]
      omega
    · intro c2 o2 hout
      rw [hws]
      rw [ihframe c2 o2 (by
        rcases hout with hh | hh | hh
        · left; exact hh
        · right; left; simp; omega
        · right; right; simp [sumW] at hh ⊢; omega)]
      show memcpy b.mem i.chunk i.off (fun j => (leBytes s.width s.val).getD j 0) s.width
          c2 o2 = b.mem c2 o2
      apply memcpy_outside
      rcases hout with hh | hh | hh
      · left; exact hh
      · right; left; exact hh
      · right; right
        have := scalar_width_pos s
        simp [sumW] at hh
        omega

/-! Claim theorems: the session state machine. -/

/-- The state-level transition agrees with the §4.4 table on every non-RECORD
response (checked over all 9 x 16 x 16 triples). -/
theorem nextStateFn_eq_specTransition :
    ∀ (s : BoltState) (req resp : bolt_structure_type), resp ≠ BST_RECORD →
      nextStateFn s req resp = specTransition s req resp := by decide

/-- C1: for every (state, request, response) triple with response not RECORD,
bolt_change_client_state moves the session to exactly the next state the
§4.4 table specifies, and traps (returns none, the model of the C assertion)
on every triple the table omits — in particular on every triple whose
current state is DEFUNCT, which has no table row, so DEFUNCT is terminal. -/
theorem claim_C1_state_table (c : BoltClient) (req resp : bolt_structure_type)
    (h : resp ≠ BST_RECORD) :
    Option.map BoltClient.state (bolt_change_client_state c req resp) =
      specTransition c.state req resp := by
  rw [bolt_change_client_state_eq, Option.map_map]
  rw [show (BoltClient.state ∘ fun s => { c with state := s }) = id from rfl, Option.map_id]
  exact nextStateFn_eq_specTransition c.state req resp h

/-- Witness for C1 at the concrete initial session and the HELLO/SUCCESS
transition of the table. -/
theorem claim_C1_state_table_witness :
    Option.map BoltClient.state (bolt_change_client_state cexClient BST_HELLO BST_SUCCESS) =
      specTransition BS_NEGOTIATION BST_HELLO BST_SUCCESS :=
  claim_C1_state_table cexClient BST_HELLO BST_SUCCESS (by decide)

/-- C9: a RECORD response returns the session unchanged — every state
(DEFUNCT included) and every request kind, no trap, no state change. -/
theorem claim_C9_record_transparent (c : BoltClient) (req : bolt_structure_type) :
    bolt_change_client_state c req BST_RECORD = some c := rfl

/-- C10: whenever bolt_change_client_state does not trap, it changes nothing
but the state field: socket, ws, reset, processing, shutdown, the three
buffers and the saved outbound write cursor all survive unchanged. -/
theorem claim_C10_frame (c : BoltClient) (req resp : bolt_structure_type) (c2 : BoltClient)
    (h : bolt_change_client_state c req resp = some c2) :
    c2.socket = c.socket ∧ c2.ws = c.ws ∧ c2.reset = c.reset ∧
    c2.processing = c.processing ∧ c2.shutdown = c.shutdown ∧
    c2.read_buf = c.read_buf ∧ c2.msg_buf = c.msg_buf ∧
    c2.write_buf = c.write_buf ∧ c2.write = c.write := by
  rw [bolt_change_client_state_eq] at h
  cases hn : nextStateFn c.state req resp with
  | none =>
    rw [hn] at h
    exact absurd h (by simp)
  | some s =>
    rw [hn] at h
    simp only [Option.map_some'] at h
    injection h with h
    subst h
    exact ⟨rfl, rfl, rfl, rfl, rfl, rfl, rfl, rfl, rfl⟩

/-- Witness for C10 at the concrete initial session. -/
theorem claim_C10_frame_witness :
    cexClient2.socket = cexClient.socket ∧ cexClient2.ws = cexClient.ws ∧
    cexClient2.reset = cexClient.reset ∧ cexClient2.processing = cexClient.processing ∧
    cexClient2.shutdown = cexClient.shutdown ∧ cexClient2.read_buf = cexClient.read_buf ∧
    cexClient2.msg_buf = cexClient.msg_buf ∧ cexClient2.write_buf = cexClient.write_buf ∧
    cexClient2.write = cexClient.write :=
  claim_C10_frame cexClient BST_HELLO BST_SUCCESS cexClient2 rfl

/-! Claim theorems: cursor arithmetic. -/

/-- C4 counterexample: advancing the cursor (0,0) by exactly one chunk size
leaves the denormalized cursor (0, BUFFER_CHUNK_SIZE) instead of rolling to
the claimed normalized cursor (1, 0) for position p + n. -/
theorem claim_C4_counterexample :
    buffer_index_add ⟨0, 0⟩ BUFFER_CHUNK_SIZE = ⟨0, BUFFER_CHUNK_SIZE⟩ ∧
    buffer_index_add ⟨0, 0⟩ BUFFER_CHUNK_SIZE ≠
      ⟨(BIndex.pos ⟨0, 0⟩ + BUFFER_CHUNK_SIZE) / BUFFER_CHUNK_SIZE,
        (BIndex.pos ⟨0, 0⟩ + BUFFER_CHUNK_SIZE) % BUFFER_CHUNK_SIZE⟩ := by decide

/-- C4 as amended: for a normalized cursor and an advance that does not land
exactly on a chunk end (and does not overflow the uint32 fields),
buffer_index_add returns the normalized cursor of position p + n. -/
theorem claim_C4_amended (i : BIndex) (n : Nat) (h1 : i.off < BUFFER_CHUNK_SIZE)
    (h2 : i.off + n ≠ BUFFER_CHUNK_SIZE) (h3 : i.off + n < 2 ^ 32)
    (h4 : i.chunk + (i.off + n) / BUFFER_CHUNK_SIZE < 2 ^ 32) :
    buffer_index_add i n =
      ⟨(i.pos + n) / BUFFER_CHUNK_SIZE, (i.pos + n) % BUFFER_CHUNK_SIZE⟩ := by
  have hcs := chunk_size_eq
  have hdiv : (i.pos + n) / BUFFER_CHUNK_SIZE = i.chunk + (i.off + n) / BUFFER_CHUNK_SIZE := by
    rw [BIndex.pos, Nat.add_assoc, Nat.mul_comm,
      Nat.mul_add_div (by omega)]
  have hmod : (i.pos + n) % BUFFER_CHUNK_SIZE = (i.off + n) % BUFFER_CHUNK_SIZE := by
    rw [BIndex.pos, Nat.add_assoc, Nat.mul_comm, Nat.mul_add_mod]
  rw [hdiv, hmod]
  unfold buffer_index_add
  rw [Nat.mod_eq_of_lt h3]
  by_cases hgt : i.off + n > BUFFER_CHUNK_SIZE
  · rw [if_pos hgt, Nat.mod_eq_of_lt h4]
  · rw [if_neg hgt]
    have hlt : i.off + n < BUFFER_CHUNK_SIZE := by omega
    rw [Nat.div_eq_of_lt hlt, Nat.mod_eq_of_lt hlt]
    simp

/-- Witness for amended C4 at a concrete cursor and advance. -/
theorem claim_C4_amended_witness :
    buffer_index_add ⟨0, 10⟩ 5 =
      ⟨(BIndex.pos ⟨0, 10⟩ + 5) / BUFFER_CHUNK_SIZE,
        (BIndex.pos ⟨0, 10⟩ + 5) % BUFFER_CHUNK_SIZE⟩ :=
  claim_C4_amended ⟨0, 10⟩ 5 (by decide) (by decide) (by decide) (by decide)

/-- buffer_index_diff computes the difference of the absolute positions,
reduced modulo 2^16. -/
theorem buffer_index_diff_eq (a b : BIndex) :
    buffer_index_diff a b = (((a.pos : Int) - b.pos) % (2 ^ 16 : Int)).toNat := by
  unfold buffer_index_diff BIndex.pos
  congr 1
  push_cast
  ring_nf

/-- C8: for two well-formed cursors of one buffer with a at or after b in
chunk-major order and byte distance under 2^16, buffer_index_diff returns
exactly that distance — the borrow when the in-chunk offset of a is smaller
than that of b is absorbed by the modular uint arithmetic. -/
theorem claim_C8_diff (a b : BIndex) (ha : a.off ≤ BUFFER_CHUNK_SIZE)
    (hb : b.off ≤ BUFFER_CHUNK_SIZE)
    (hord : b.chunk < a.chunk ∨ (b.chunk = a.chunk ∧ b.off ≤ a.off))
    (hdist : a.pos - b.pos < 65536) :
    buffer_index_diff a b = a.pos - b.pos := by
  have hcs := chunk_size_eq
  have hle : b.pos ≤ a.pos := by
    rcases hord with hlt | ⟨heq, hoff⟩
    · have : (b.chunk + 1) * BUFFER_CHUNK_SIZE ≤ a.chunk * BUFFER_CHUNK_SIZE :=
        Nat.mul_le_mul_right _ hlt
      rw [BIndex.pos, BIndex.pos]
      simp only [chunk_size_eq] at *
      omega
    · rw [BIndex.pos, BIndex.pos, heq]
      omega
  rw [buffer_index_diff_eq]
  rw [show ((a.pos : Int) - b.pos) = ((a.pos - b.pos : Nat) : Int) from by omega]
  rw [Int.emod_eq_of_lt (by positivity) (by exact_mod_cast hdist)]
  exact Int.toNat_natCast _

/-- Witness for C8: cursors one chunk apart with a borrow in the offsets. -/
theorem claim_C8_diff_witness :
    buffer_index_diff ⟨1, 2⟩ ⟨0, 4000⟩ = BIndex.pos ⟨1, 2⟩ - BIndex.pos ⟨0, 4000⟩ :=
  claim_C8_diff ⟨1, 2⟩ ⟨0, 4000⟩ (by decide) (by decide) (by decide) (by decide)

/-! Claim theorems: typed scalar round trips. -/

/-- C3 counterexample: a u32 written at offset 4094 straddles the chunk end,
so buffer_write splits it across two chunks, but buffer_read_uint32 reads 4
contiguous bytes of the first chunk — the last two of which lie past the
chunk end (uninitialized memory, 0 in this concrete buffer).  The value read
back is 0x304, not the written 0x01020304. -/
theorem claim_C3_counterexample :
    readScalars (writeScalars zeroBuffer ⟨0, 4094⟩ [Scalar.u32 0x01020304]).1 ⟨0, 4094⟩
        [Scalar.u32 0x01020304] = [772] ∧ (772 : Nat) ≠ 0x01020304 := by
  refine ⟨?_, by decide⟩
  have hw : writeScalars zeroBuffer ⟨0, 4094⟩ [Scalar.u32 0x01020304] =
      (⟨memcpy (memcpy zeroBuffer.mem 0 4094 (fun k => [4, 3, 2, 1].getD k 0) 2) 1 0
          (fun k => [2, 1].getD k 0) 2, 2, ⟨0, 0⟩, ⟨0, 0⟩⟩,
        ⟨1, 2⟩) := by
    simp only [writeScalars, buffer_write_scalar, Scalar.width, Scalar.val]
    rw [show leBytes 4 0x01020304 = [4, 3, 2, 1] from by decide]
    rw [buffer_write_of_gt (by decide)]
    norm_num [chunk_size_eq]
    rw [buffer_write_of_le (by decide)]
    rw [buffer_index_add_small _ _ (by decide)]
    norm_num [zeroBuffer]
  rw [hw]
  decide

/-- C3 as amended: when every typed read stays inside the chunk its cursor
points into (readsOk — which the unrollable read-side pointer casts force),
reading back a written scalar sequence returns exactly the written values
reduced to their widths, and the cursor distance equals the width sum. -/
theorem claim_C3_amended (b : Buffer) (i : BIndex) (l : List Scalar) (h : readsOk i l) :
    readScalars (writeScalars b i l).1 i l = l.map (fun s => s.val % 256 ^ s.width) ∧
    buffer_index_diff (writeScalars b i l).2 i = sumW l := by
  obtain ⟨hr, hcur, _⟩ := writeScalars_readScalars l b i h
  refine ⟨hr, ?_⟩
  rw [hcur, buffer_index_diff_eq]
  have hsum : sumW l ≤ BUFFER_CHUNK_SIZE := by
    rcases readsOk_sum l i h with he | hb2
    · subst he
      simp [sumW, chunk_size_eq]
    · omega
  have hpos : ((BIndex.pos ⟨i.chunk, i.off + sumW l⟩ : Int) - BIndex.pos i)
      = (sumW l : Int) := by
    rw [BIndex.pos_mk, BIndex.pos]
    push_cast
    ring
  rw [hpos]
  rw [Int.emod_eq_of_lt (by positivity) (by
    have hcs := chunk_size_eq
    have : ((2 : Int) ^ 16) = 65536 := by norm_num
    omega)]
  exact Int.toNat_natCast _

/-- Witness for amended C3 at a concrete buffer, cursor and sequence. -/
theorem claim_C3_amended_witness :
    readsOk ⟨0, 100⟩ cexScalars ∧
    (readScalars (writeScalars zeroBuffer ⟨0, 100⟩ cexScalars).1 ⟨0, 100⟩ cexScalars
        = cexScalars.map (fun s => s.val % 256 ^ s.width) ∧
      buffer_index_diff (writeScalars zeroBuffer ⟨0, 100⟩ cexScalars).2 ⟨0, 100⟩
        = sumW cexScalars) :=
  ⟨by decide, claim_C3_amended zeroBuffer ⟨0, 100⟩ cexScalars (by decide)⟩

/-! Claim theorems: the socket fill loop. -/

/-- The refill loop returns false exactly when an executed continuation read
reports an error; an EOF (zero) continuation read exits with true. -/
theorem bsr_loop_false_iff : ∀ (sock : List SockCall) (b : Buffer) (r : Bool × Buffer),
    bsr_loop b sock = some r → (r.1 = false ↔ bsr_loop_fails b sock) := by
  intro sock
  induction sock with
  | nil =>
    intro b r h
    rw [bsr_loop] at h
    by_cases hoff : b.write.off = BUFFER_CHUNK_SIZE
    · rw [if_pos hoff] at h
      exact absurd h (by simp)
    · rw [if_neg hoff] at h
      injection h with h
      subst h
      simp [bsr_loop_fails]
  | cons c rest ih =>
    intro b r h
    obtain ⟨n, d⟩ := c
    rw [bsr_loop] at h
    by_cases hoff : b.write.off = BUFFER_CHUNK_SIZE
    · rw [if_pos hoff] at h
      by_cases hn : n < 0
      · rw [if_pos hn] at h
        injection h with h
        subst h
        simp [bsr_loop_fails, hoff, hn]
      · rw [if_neg hn] at h
        have := ih (bsr_step b n d) r h
        simp [bsr_loop_fails, hoff, hn, this]
    · rw [if_neg hoff] at h
      injection h with h
      subst h
      simp [bsr_loop_fails, hoff]

/-- C5 counterexample: a read that fills the chunk exactly, then EOF on the
continuation read — the peer has closed, yet buffer_socket_read returns
true (the EOF goes unnoticed until the next call). -/
theorem claim_C5_counterexample :
    (buffer_socket_read zeroBuffer
        [((BUFFER_CHUNK_SIZE : Int), fun _ => 1), ((0 : Int), fun _ => 2)]).map Prod.fst
      = some true := by decide

/-- C5 as amended: when the socket stream outlasts the call,
buffer_socket_read returns false exactly when the initial read reports an
error or reports EOF with the current chunk not already full, or a
continuation read (after a chunk filled) reports an error; EOF on a
continuation read yields true. -/
theorem claim_C5_amended (b : Buffer) (sock : List SockCall)
    (h : (buffer_socket_read b sock).isSome) :
    ((buffer_socket_read b sock).map Prod.fst = some false ↔
      buffer_socket_read_fails b sock) := by
  cases sock with
  | nil => exact absurd h (by rw [buffer_socket_read]; simp)
  | cons c rest =>
    obtain ⟨n, d⟩ := c
    rw [buffer_socket_read] at h ⊢
    by_cases hc : n < 0 ∨ (n = 0 ∧ b.write.off < BUFFER_CHUNK_SIZE)
    · rw [if_pos hc]
      simp [buffer_socket_read_fails, hc]
    · rw [if_neg hc] at h ⊢
      cases hr : bsr_loop (bsr_init b n d) rest with
      | none =>
        rw [hr] at h
        simp at h
      | some r =>
        have hiff := bsr_loop_false_iff rest (bsr_init b n d) r hr
        simp [buffer_socket_read_fails, hc, hiff]

/-- Witness for amended C5: a partial read with no error returns true, and
the failure predicate is false for that stream. -/
theorem claim_C5_amended_witness :
    ((buffer_socket_read zeroBuffer [((3 : Int), fun _ => 9)]).isSome = true) ∧
    ((buffer_socket_read zeroBuffer [((3 : Int), fun _ => 9)]).map Prod.fst = some false ↔
      buffer_socket_read_fails zeroBuffer [((3 : Int), fun _ => 9)]) :=
  ⟨by decide, claim_C5_amended zeroBuffer [((3 : Int), fun _ => 9)] (by decide)⟩

/-! Claim theorems: WebSocket frame length byte of bolt_client_end_message. -/

/-- byteAt view of the buffer_write frame clause. -/
theorem buffer_write_byteAt_frame (b : Buffer) (i : BIndex) (data : List Nat)
    (hoff : i.off ≤ BUFFER_CHUNK_SIZE) (p : Nat)
    (hp : p < i.pos ∨ i.pos + data.length ≤ p) :
    byteAt (buffer_write b i data).1 p = byteAt b p := by
  obtain ⟨-, -, -, hframe, -, -, -⟩ := buffer_write_spec b i data hoff
  unfold byteAt
  rw [hframe (p / BUFFER_CHUNK_SIZE) (p % BUFFER_CHUNK_SIZE) (by
    have hdm : p / BUFFER_CHUNK_SIZE * BUFFER_CHUNK_SIZE + p % BUFFER_CHUNK_SIZE = p :=
      Nat.div_add_mod' p BUFFER_CHUNK_SIZE
    rcases hp with h1 | h1
    · right; left; omega
    · right; right; omega)]

/-- Writing through the saved outbound cursor: cursor advance, the bytes
written, the untouched bytes, and the untouched buffer cursor fields. -/
theorem clientWriteAtWrite_spec (c : BoltClient) (data : List Nat)
    (hoff : c.write.off ≤ BUFFER_CHUNK_SIZE) :
    (clientWriteAtWrite c data).write.pos = c.write.pos + data.length ∧
    (clientWriteAtWrite c data).write.off ≤ BUFFER_CHUNK_SIZE ∧
    (∀ k, k < data.length →
      byteAt (clientWriteAtWrite c data).write_buf (c.write.pos + k) = data.getD k 0) ∧
    (∀ p, p < c.write.pos ∨ c.write.pos + data.length ≤ p →
      byteAt (clientWriteAtWrite c data).write_buf p = byteAt c.write_buf p) ∧
    (clientWriteAtWrite c data).write_buf.write = c.write_buf.write ∧
    (clientWriteAtWrite c data).write_buf.read = c.write_buf.read ∧
    (clientWriteAtWrite c data).ws = c.ws := by
  obtain ⟨h1, h2, h3, h4, h5, h6, h7⟩ := buffer_write_spec c.write_buf c.write data hoff
  exact ⟨h1, h2, h3,
    fun p hp => buffer_write_byteAt_frame c.write_buf c.write data hoff p hp, h6, h5, rfl⟩

/-- Appending at a buffer's own write cursor: cursor advance, bytes written,
untouched bytes. -/
theorem bufAppend_spec (b : Buffer) (data : List Nat)
    (hoff : b.write.off ≤ BUFFER_CHUNK_SIZE) :
    (bufAppend b data).write.pos = b.write.pos + data.length ∧
    (bufAppend b data).write.off ≤ BUFFER_CHUNK_SIZE ∧
    (∀ k, k < data.length →
      byteAt (bufAppend b data) (b.write.pos + k) = data.getD k 0) ∧
    (∀ p, p < b.write.pos ∨ b.write.pos + data.length ≤ p →
      byteAt (bufAppend b data) p = byteAt b p) := by
  obtain ⟨h1, h2, h3, h4, h5, h6, h7⟩ := buffer_write_spec b b.write data hoff
  exact ⟨h1, h2, h3,
    fun p hp => buffer_write_byteAt_frame b b.write data hoff p hp⟩

set_option maxHeartbeats 2000000 in
/-- In WebSocket mode bolt_client_end_message writes 0x82 at the saved
cursor position and, one byte later, the single length byte whose value is
the uint16 diff of the cursors (the frame payload length: 2-byte chunk
length slot, payload, 2-byte terminator) reduced modulo 256. -/
theorem end_message_ws_bytes (c : BoltClient) (d : Nat) (hws : c.ws = true)
    (hoff : c.write.off ≤ BUFFER_CHUNK_SIZE)
    (hwoff : c.write_buf.write.off ≤ BUFFER_CHUNK_SIZE)
    (hd : c.write_buf.write.pos = c.write.pos + d) (hd4 : 4 ≤ d) (hdlt : d < 65536) :
    byteAt (bolt_client_end_message c).write_buf c.write.pos = 0x82 ∧
    byteAt (bolt_client_end_message c).write_buf (c.write.pos + 1) = d % 256 := by
  have hdiff : buffer_index_diff c.write_buf.write c.write = d := by
    rw [buffer_index_diff_eq, hd]
    rw [show ((c.write.pos + d : Nat) : Int) - (c.write.pos : Nat) = (d : Int) from by
      push_cast
      ring]
    rw [Int.emod_eq_of_lt (by positivity) (by omega)]
    exact Int.toNat_natCast _
  have hn0 : (buffer_index_diff c.write_buf.write c.write + 65534) % 65536 = d - 2 := by
    rw [hdiff]
    omega
  set W := c.write.pos with hW
  -- step 1: the frame header byte through the saved cursor
  obtain ⟨s1pos, s1off, s1bytes, s1frame, s1wb, s1rb, s1ws⟩ :=
    clientWriteAtWrite_spec c (leBytes 1 0x82) hoff
  set cA := clientWriteAtWrite c (leBytes 1 0x82) with hcA
  -- step 2: the length byte
  obtain ⟨s2pos, s2off, s2bytes, s2frame, s2wb, s2rb, s2ws⟩ :=
    clientWriteAtWrite_spec cA (leBytes 1 ((buffer_index_diff c.write_buf.write c.write
      + 65534) % 65536 + 2)) s1off
  set cB := clientWriteAtWrite cA (leBytes 1 ((buffer_index_diff c.write_buf.write c.write
      + 65534) % 65536 + 2)) with hcB
  -- step 3: the chunk length backfill
  obtain ⟨s3pos, s3off, s3bytes, s3frame, s3wb, s3rb, s3ws⟩ :=
    clientWriteAtWrite_spec cB (leBytes 2 (htons (((buffer_index_diff c.write_buf.write
      c.write + 65534) % 65536 + 65534) % 65536))) s2off
  set cC := clientWriteAtWrite cB (leBytes 2 (htons (((buffer_index_diff c.write_buf.write
      c.write + 65534) % 65536 + 65534) % 65536))) with hcC
  -- positions of the writes so far
  have hApos : cA.write.pos = W + 1 := by
    rw [s1pos, leBytes_length]
  have hBpos : cB.write.pos = W + 2 := by
    rw [s2pos, hApos, leBytes_length]
  have hCwb : cC.write_buf.write = c.write_buf.write := by
    rw [s3wb, s2wb, s1wb]
  have hCwoff : cC.write_buf.write.off ≤ BUFFER_CHUNK_SIZE := by
    rw [hCwb]
    exact hwoff
  have hCwpos : cC.write_buf.write.pos = W + d := by
    rw [hCwb, hd, hW]
  -- steps 4 and 5: the two terminator bytes at the buffer write cursor
  obtain ⟨t1pos, t1off, t1bytes, t1frame⟩ := bufAppend_spec cC.write_buf (leBytes 1 0) hCwoff
  set bD := bufAppend cC.write_buf (leBytes 1 0) with hbD
  obtain ⟨t2pos, t2off, t2bytes, t2frame⟩ := bufAppend_spec bD (leBytes 1 0) t1off
  set bE := bufAppend bD (leBytes 1 0) with hbE
  have hDpos : bD.write.pos = W + d + 1 := by
    rw [t1pos, hCwpos, leBytes_length]
  have hEpos : bE.write.pos = W + d + 2 := by
    rw [t2pos, hDpos, leBytes_length]
  -- steps 6 and 7: the reserved slots for the next message
  obtain ⟨u1pos, u1off, u1bytes, u1frame⟩ := bufAppend_spec bE (leBytes 2 0) t2off
  set bF := bufAppend bE (leBytes 2 0) with hbF
  obtain ⟨u2pos, u2off, u2bytes, u2frame⟩ := bufAppend_spec bF (leBytes 2 0) u1off
  set bG := bufAppend bF (leBytes 2 0) with hbG
  have hFpos : bF.write.pos = W + d + 4 := by
    rw [u1pos, hEpos, leBytes_length]
  -- the function produces exactly this chain
  have hout : (bolt_client_end_message c).write_buf = bG := by
    rw [bolt_client_end_message]
    rw [hws]
    rfl
  -- collect the two byte values through the frames
  have hbyte1 : byteAt bG W = 0x82 := by
    rw [hbG, u2frame W (by left; omega), hbF, u1frame W (by left; omega),
      hbE, t2frame W (by left; omega), hbD, t1frame W (by left; omega)]
    rw [hcC] at *
    rw [s3frame W (by left; omega), s2frame W (by left; omega)]
    have := s1bytes 0 (by rw [leBytes_length]; omega)
    simpa using this
  have hbyte2 : byteAt bG (W + 1) = d % 256 := by
    rw [hbG, u2frame (W + 1) (by left; omega), hbF, u1frame (W + 1) (by left; omega),
      hbE, t2frame (W + 1) (by left; omega), hbD, t1frame (W + 1) (by left; omega)]
    rw [s3frame (W + 1) (by rw [hBpos]; left; omega)]
    have := s2bytes 0 (by rw [leBytes_length]; omega)
    rw [hApos] at this
    simp only [Nat.add_zero] at this
    rw [this]
    rw [hn0]
    simp [leBytes]
    omega
  rw [hout]
  exact ⟨hbyte1, hbyte2⟩

/-- C6 counterexample: with 122 payload bytes the frame payload (chunk
length slot + payload + terminator) is 126 bytes; bolt_client_end_message
emits the single length byte 126, which RFC 6455 reserves as the 16-bit
extended-length escape — it does not validly encode a 126-byte payload. -/
theorem claim_C6_counterexample :
    byteAt (bolt_client_end_message cex6).write_buf (BIndex.pos (⟨0, 0⟩ : BIndex) + 1) = 126 ∧
    ¬ wsLenByteOk
      (byteAt (bolt_client_end_message cex6).write_buf (BIndex.pos (⟨0, 0⟩ : BIndex) + 1))
      126 := by
  have h := end_message_ws_bytes cex6 126 rfl (by decide) (by decide) (by decide) (by decide)
    (by decide)
  have h2 : byteAt (bolt_client_end_message cex6).write_buf
      (BIndex.pos (⟨0, 0⟩ : BIndex) + 1) = 126 := by
    have := h.2
    norm_num at this ⊢
    exact this
  refine ⟨h2, ?_⟩
  rw [h2]
  decide

/-- C6 as amended: in WebSocket mode, for a message whose frame payload d
(the 2-byte chunk-length slot, the payload and the 2-byte terminator —
equal to n + 2 in the claim, n being the value backfilled into the length
slot plus 2) is at most 125 bytes, bolt_client_end_message prepends 0x82
followed by one length byte equal to d, a valid RFC 6455 7-bit length.
Frame payloads over 125 bytes are emitted with a malformed length byte. -/
theorem claim_C6_amended (c : BoltClient) (d : Nat) (hws : c.ws = true)
    (hoff : c.write.off ≤ BUFFER_CHUNK_SIZE)
    (hwoff : c.write_buf.write.off ≤ BUFFER_CHUNK_SIZE)
    (hd : c.write_buf.write.pos = c.write.pos + d) (hd4 : 4 ≤ d) (hd125 : d ≤ 125) :
    byteAt (bolt_client_end_message c).write_buf c.write.pos = 0x82 ∧
    byteAt (bolt_client_end_message c).write_buf (c.write.pos + 1) = d ∧
    wsLenByteOk (byteAt (bolt_client_end_message c).write_buf (c.write.pos + 1)) d := by
  obtain ⟨h1, h2⟩ := end_message_ws_bytes c d hws hoff hwoff hd hd4 (by omega)
  have hmod : d % 256 = d := Nat.mod_eq_of_lt (by omega)
  rw [hmod] at h2
  exact ⟨h1, h2, by rw [h2]; exact ⟨hd125, rfl⟩⟩

/-- Witness for amended C6 at the concrete session with frame payload 10. -/
theorem claim_C6_amended_witness :
    byteAt (bolt_client_end_message cexW6).write_buf cexW6.write.pos = 0x82 ∧
    byteAt (bolt_client_end_message cexW6).write_buf (cexW6.write.pos + 1) = 10 ∧
    wsLenByteOk (byteAt (bolt_client_end_message cexW6).write_buf (cexW6.write.pos + 1)) 10 :=
  claim_C6_amended cexW6 10 rfl (by decide) (by decide) (by decide) (by decide) (by decide)

/-! Claim theorems: the chunked bulk copy. -/

set_option maxHeartbeats 2000000 in
set_option maxRecDepth 2048 in
/-- Full correctness of buffer_read: both cursors advance by the byte count
and stay well formed, the copied bytes equal the source bytes position for
position, and destination bytes outside the copied range are untouched. -/
theorem buffer_read_spec (srcB : Buffer) :
    ∀ (si : BIndex) (dstB : Buffer) (di : BIndex) (size : Nat),
    si.off ≤ BUFFER_CHUNK_SIZE → di.off ≤ BUFFER_CHUNK_SIZE →
    BRSpec srcB si dstB di size (buffer_read srcB si dstB di size) := by
  intro si dstB di size
  induction si, dstB, di, size using buffer_read.induct srcB with
  | case1 si dstB di =>
    intro hs hd
    have hstep : buffer_read srcB si dstB di 0 = (si, dstB, di) := by
      rw [buffer_read.eq_def]
      rw [dif_pos rfl]
    rw [hstep]
    exact ⟨by simp, by simp, hs, hd, fun k hk => absurd hk (by omega),
      fun p hp => rfl⟩
  | case2 si dstB di size h0 h1 =>
    intro hs hd
    have hcs := chunk_size_eq
    have hstep : buffer_read srcB si dstB di size =
        (buffer_index_add si size,
          { dstB with
            mem := memcpy dstB.mem di.chunk di.off
              (fun k => srcB.mem si.chunk (si.off + k)) size },
          buffer_index_add di size) := by
      rw [buffer_read.eq_def]
      rw [dif_neg h0, dif_pos h1]
    obtain ⟨h1s, h1d⟩ := h1
    have hsz : si.off + size < BUFFER_CHUNK_SIZE := by omega
    have hdz : di.off + size < BUFFER_CHUNK_SIZE := by omega
    rw [hstep, buffer_index_add_small si size (by omega), buffer_index_add_small di size
      (by omega)]
    refine ⟨by rw [BIndex.pos_mk, BIndex.pos]; omega, by rw [BIndex.pos_mk, BIndex.pos]; omega,
      by simp; omega, by simp; omega, ?_, ?_⟩
    · intro k hk
      rw [show di.pos + k = di.chunk * BUFFER_CHUNK_SIZE + (di.off + k) from by
        rw [BIndex.pos]; omega]
      rw [byteAt_mk _ _ _ (by omega)]
      show memcpy dstB.mem di.chunk di.off (fun j => srcB.mem si.chunk (si.off + j)) size
          di.chunk (di.off + k) = byteAt srcB (si.pos + k)
      rw [memcpy_inside _ _ _ _ _ _ hk]
      rw [show si.pos + k = si.chunk * BUFFER_CHUNK_SIZE + (si.off + k) from by
        rw [BIndex.pos]; omega]
      rw [byteAt_mk _ _ _ (by omega)]
    · intro p hp
      unfold byteAt
      show memcpy dstB.mem di.chunk di.off (fun j => srcB.mem si.chunk (si.off + j)) size
          (p / BUFFER_CHUNK_SIZE) (p % BUFFER_CHUNK_SIZE) = _
      rw [memcpy_outside _ _ _ _ _ _ _ (by
        have hdm : p / BUFFER_CHUNK_SIZE * BUFFER_CHUNK_SIZE + p % BUFFER_CHUNK_SIZE = p :=
          Nat.div_add_mod' p BUFFER_CHUNK_SIZE
        by_cases hcc : p / BUFFER_CHUNK_SIZE = di.chunk
        · rw [hcc] at hdm
          rw [BIndex.pos] at hp
          right
          rcases hp with hlt | hge
          · left; omega
          · right; omega
        · left; exact hcc)]
  | case3 si dstB di size h0 h1 h2 ih =>
    intro hs hd
    have hcs := chunk_size_eq
    have hstep : buffer_read srcB si dstB di size =
        buffer_read srcB ⟨si.chunk + 1, 0⟩
          { dstB with
            mem := memcpy dstB.mem di.chunk di.off
              (fun k => srcB.mem si.chunk (si.off + k)) (BUFFER_CHUNK_SIZE - si.off) }
          ⟨di.chunk, di.off + (BUFFER_CHUNK_SIZE - si.off)⟩
          (size - (BUFFER_CHUNK_SIZE - si.off)) := by
      rw [buffer_read.eq_def]
      rw [dif_neg h0, dif_neg h1, dif_pos h2]
    have hsz : BUFFER_CHUNK_SIZE - si.off ≤ size := by omega
    have hdo : di.off + (BUFFER_CHUNK_SIZE - si.off) < BUFFER_CHUNK_SIZE := by omega
    rw [hstep]
    generalize hgen : buffer_read srcB ⟨si.chunk + 1, 0⟩
        { dstB with
          mem := memcpy dstB.mem di.chunk di.off
            (fun k => srcB.mem si.chunk (si.off + k)) (BUFFER_CHUNK_SIZE - si.off) }
        ⟨di.chunk, di.off + (BUFFER_CHUNK_SIZE - si.off)⟩
        (size - (BUFFER_CHUNK_SIZE - si.off)) = R at ih ⊢
    obtain ⟨ih1, ih2, ih3, ih4, ihbytes, ihframe⟩ := ih (by simp) (by simp; omega)
    have hspos : (BIndex.pos ⟨si.chunk + 1, 0⟩) = si.pos + (BUFFER_CHUNK_SIZE - si.off) := by
      rw [BIndex.pos_mk, BIndex.pos]
      simp only [chunk_size_eq] at *
      omega
    have hdpos : (BIndex.pos ⟨di.chunk, di.off + (BUFFER_CHUNK_SIZE - si.off)⟩)
        = di.pos + (BUFFER_CHUNK_SIZE - si.off) := by
      rw [BIndex.pos_mk, BIndex.pos]
      omega
    rw [hspos] at ih1
    rw [hdpos] at ih2 ihbytes ihframe
    rw [hspos] at ihbytes
    refine ⟨by rw [ih1]; omega, by rw [ih2]; omega, ih3, ih4, ?_, ?_⟩
    · intro k hk
      by_cases hks : k < BUFFER_CHUNK_SIZE - si.off
      · rw [ihframe (di.pos + k) (by left; omega)]
        rw [show di.pos + k = di.chunk * BUFFER_CHUNK_SIZE + (di.off + k) from by
          rw [BIndex.pos]; omega]
        rw [byteAt_mk _ _ _ (by omega)]
        show memcpy dstB.mem di.chunk di.off (fun j => srcB.mem si.chunk (si.off + j))
            (BUFFER_CHUNK_SIZE - si.off) di.chunk (di.off + k) = byteAt srcB (si.pos + k)
        rw [memcpy_inside _ _ _ _ _ _ hks]
        rw [show si.pos + k = si.chunk * BUFFER_CHUNK_SIZE + (si.off + k) from by
          rw [BIndex.pos]; omega]
        rw [byteAt_mk _ _ _ (by omega)]
      · have hby := ihbytes (k - (BUFFER_CHUNK_SIZE - si.off)) (by omega)
        rw [show di.pos + (BUFFER_CHUNK_SIZE - si.off) + (k - (BUFFER_CHUNK_SIZE - si.off))
            = di.pos + k from by omega] at hby
        rw [show si.pos + (BUFFER_CHUNK_SIZE - si.off) + (k - (BUFFER_CHUNK_SIZE - si.off))
            = si.pos + k from by omega] at hby
        exact hby
    · intro p hp
      rw [ihframe p (by
        rcases hp with hlt | hge
        · left; omega
        · right; omega)]
      unfold byteAt
      show memcpy dstB.mem di.chunk di.off (fun j => srcB.mem si.chunk (si.off + j))
          (BUFFER_CHUNK_SIZE - si.off) (p / BUFFER_CHUNK_SIZE) (p % BUFFER_CHUNK_SIZE) = _
      rw [memcpy_outside _ _ _ _ _ _ _ (by
        have hdm : p / BUFFER_CHUNK_SIZE * BUFFER_CHUNK_SIZE + p % BUFFER_CHUNK_SIZE = p :=
          Nat.div_add_mod' p BUFFER_CHUNK_SIZE
        by_cases hcc : p / BUFFER_CHUNK_SIZE = di.chunk
        · rw [hcc] at hdm
          rw [BIndex.pos] at hp
          right
          rcases hp with hlt | hge
          · left; omega
          · right; omega
        · left; exact hcc)]
  | case4 si dstB di size h0 h1 h2 b1 b2 ih =>
    intro hs hd
    have hcs := chunk_size_eq
    have hstep : buffer_read srcB si dstB di size =
        buffer_read srcB ⟨si.chunk, si.off + (BUFFER_CHUNK_SIZE - di.off)⟩ b2
          ⟨di.chunk + 1, 0⟩ (size - (BUFFER_CHUNK_SIZE - di.off)) := by
      rw [buffer_read.eq_def]
      rw [dif_neg h0, dif_neg h1, dif_neg h2]
      rfl
    have hsz : BUFFER_CHUNK_SIZE - di.off ≤ size := by omega
    have hso : si.off + (BUFFER_CHUNK_SIZE - di.off) ≤ BUFFER_CHUNK_SIZE := by omega
    have hb2mem : b2.mem = memcpy dstB.mem di.chunk di.off
        (fun k => srcB.mem si.chunk (si.off + k)) (BUFFER_CHUNK_SIZE - di.off) := by
      simp only [b2, b1]
      split <;> rfl
    have hbyb2 : ∀ p, byteAt b2 p = byteAt { dstB with
        mem := memcpy dstB.mem di.chunk di.off
          (fun k => srcB.mem si.chunk (si.off + k)) (BUFFER_CHUNK_SIZE - di.off) } p := by
      intro p
      unfold byteAt
      rw [hb2mem]
    rw [hstep]
    generalize hgen : buffer_read srcB ⟨si.chunk, si.off + (BUFFER_CHUNK_SIZE - di.off)⟩ b2
        ⟨di.chunk + 1, 0⟩ (size - (BUFFER_CHUNK_SIZE - di.off)) = R at ih ⊢
    obtain ⟨ih1, ih2, ih3, ih4, ihbytes, ihframe⟩ := ih (by simp; omega) (by simp)
    have hspos : (BIndex.pos ⟨si.chunk, si.off + (BUFFER_CHUNK_SIZE - di.off)⟩)
        = si.pos + (BUFFER_CHUNK_SIZE - di.off) := by
      rw [BIndex.pos_mk, BIndex.pos]
      omega
    have hdpos : (BIndex.pos ⟨di.chunk + 1, 0⟩) = di.pos + (BUFFER_CHUNK_SIZE - di.off) := by
      rw [BIndex.pos_mk, BIndex.pos]
      simp only [chunk_size_eq] at *
      omega
    rw [hspos] at ih1 ihbytes
    rw [hdpos] at ih2 ihbytes ihframe
    refine ⟨by rw [ih1]; omega, by rw [ih2]; omega, ih3, ih4, ?_, ?_⟩
    · intro k hk
      by_cases hks : k < BUFFER_CHUNK_SIZE - di.off
      · rw [ihframe (di.pos + k) (by left; omega)]
        rw [hbyb2]
        rw [show di.pos + k = di.chunk * BUFFER_CHUNK_SIZE + (di.off + k) from by
          rw [BIndex.pos]; omega]
        rw [byteAt_mk _ _ _ (by omega)]
        show memcpy dstB.mem di.chunk di.off (fun j => srcB.mem si.chunk (si.off + j))
            (BUFFER_CHUNK_SIZE - di.off) di.chunk (di.off + k) = byteAt srcB (si.pos + k)
        rw [memcpy_inside _ _ _ _ _ _ hks]
        rw [show si.pos + k = si.chunk * BUFFER_CHUNK_SIZE + (si.off + k) from by
          rw [BIndex.pos]; omega]
        rw [byteAt_mk _ _ _ (by omega)]
      · have hby := ihbytes (k - (BUFFER_CHUNK_SIZE - di.off)) (by omega)
        rw [show di.pos + (BUFFER_CHUNK_SIZE - di.off) + (k - (BUFFER_CHUNK_SIZE - di.off))
            = di.pos + k from by omega] at hby
        rw [show si.pos + (BUFFER_CHUNK_SIZE - di.off) + (k - (BUFFER_CHUNK_SIZE - di.off))
            = si.pos + k from by omega] at hby
        exact hby
    · intro p hp
      rw [ihframe p (by
        rcases hp with hlt | hge
        · left; omega
        · right; omega)]
      rw [hbyb2]
      unfold byteAt
      show memcpy dstB.mem di.chunk di.off (fun j => srcB.mem si.chunk (si.off + j))
          (BUFFER_CHUNK_SIZE - di.off) (p / BUFFER_CHUNK_SIZE) (p % BUFFER_CHUNK_SIZE) = _
      rw [memcpy_outside _ _ _ _ _ _ _ (by
        have hdm : p / BUFFER_CHUNK_SIZE * BUFFER_CHUNK_SIZE + p % BUFFER_CHUNK_SIZE = p :=
          Nat.div_add_mod' p BUFFER_CHUNK_SIZE
        by_cases hcc : p / BUFFER_CHUNK_SIZE = di.chunk
        · rw [hcc] at hdm
          rw [BIndex.pos] at hp
          right
          rcases hp with hlt | hge
          · left; omega
          · right; omega
        · left; exact hcc)]

/-- C7: the bulk copy transfers exactly n bytes: the n bytes at the
destination's original cursor afterwards equal the n bytes at the source's
original cursor, for every placement of chunk boundaries on either side,
and both cursors advance by n. -/
theorem claim_C7_copy (srcB : Buffer) (si : BIndex) (dstB : Buffer) (di : BIndex) (n : Nat)
    (hs : si.off ≤ BUFFER_CHUNK_SIZE) (hd : di.off ≤ BUFFER_CHUNK_SIZE)
    (hreadable : si.pos + n ≤ srcB.write.pos) :
    bytesAt (buffer_read srcB si dstB di n).2.1 di.pos n = bytesAt srcB si.pos n ∧
    (buffer_read srcB si dstB di n).1.pos = si.pos + n ∧
    (buffer_read srcB si dstB di n).2.2.pos = di.pos + n := by
  obtain ⟨h1, h2, h3, h4, hbytes, hframe⟩ := buffer_read_spec srcB si dstB di n hs hd
  refine ⟨?_, h1, h2⟩

  unfold bytesAt
  apply List.map_congr_left
  intro k hk
  rw [List.mem_range] at hk
  exact hbytes k hk

/-- Witness for C7: a 10-byte copy that crosses a chunk boundary in both
the source and the destination. -/
theorem claim_C7_copy_witness :
    (BIndex.off (⟨0, 4090⟩ : BIndex) ≤ BUFFER_CHUNK_SIZE) ∧
    (BIndex.off (⟨0, 4094⟩ : BIndex) ≤ BUFFER_CHUNK_SIZE) ∧
    (BIndex.pos (⟨0, 4090⟩ : BIndex) + 10 ≤ BIndex.pos cexSrc.write) ∧
    (bytesAt (buffer_read cexSrc ⟨0, 4090⟩ zeroBuffer ⟨0, 4094⟩ 10).2.1
        (BIndex.pos (⟨0, 4094⟩ : BIndex)) 10
      = bytesAt cexSrc (BIndex.pos (⟨0, 4090⟩ : BIndex)) 10 ∧
    (buffer_read cexSrc ⟨0, 4090⟩ zeroBuffer ⟨0, 4094⟩ 10).1.pos
      = BIndex.pos (⟨0, 4090⟩ : BIndex) + 10 ∧
    (buffer_read cexSrc ⟨0, 4090⟩ zeroBuffer ⟨0, 4094⟩ 10).2.2.pos
      = BIndex.pos (⟨0, 4094⟩ : BIndex) + 10) :=
  ⟨by decide, by decide, by decide,
    claim_C7_copy cexSrc ⟨0, 4090⟩ zeroBuffer ⟨0, 4094⟩ 10 (by decide) (by decide) (by decide)⟩

/-! Claim theorems: the RESET fast path of bolt_client_send. -/

/-- Draining a buffer whose cursor sits in chunk 0 emits exactly the bytes
of chunk 0 below the cursor offset. -/
theorem buffer_socket_write_chunk0 (b : Buffer) (off : Nat) :
    buffer_socket_write b ⟨0, off⟩ = (List.range off).map (b.mem 0) := by
  simp [buffer_socket_write]

set_option maxRecDepth 8192 in
/-- Composing and flushing the SUCCESS-with-empty-map acknowledgment from a
rewound buffer drains exactly the framed message 00 03 B1 70 A0 00 00 and
leaves state and reset untouched. -/
theorem resetFlush_success (c : BoltClient) (hw : c.write = ⟨0, 0⟩)
    (hww : c.write_buf.write = ⟨0, 2⟩) :
    (resetFlush (bolt_reply_map (bolt_reply_structure c BST_SUCCESS 1) 0)).2
      = [0x00, 0x03, 0xB1, 0x70, 0xA0, 0x00, 0x00] ∧
    (resetFlush (bolt_reply_map (bolt_reply_structure c BST_SUCCESS 1) 0)).1.state = c.state ∧
    (resetFlush (bolt_reply_map (bolt_reply_structure c BST_SUCCESS 1) 0)).1.reset
      = c.reset := by
  obtain ⟨sock, st, ws, rst, proc, shut, rb, mb, wb, w⟩ := c
  obtain ⟨M, N, br, bw⟩ := wb
  simp only at hw hww
  subst hw hww
  refine ⟨?_, rfl, rfl⟩
  norm_num [resetFlush, bolt_reply_structure, bolt_reply_map, bufAppend, clientWriteAtWrite,
    tagByte, buffer_write_of_le, chunk_size_eq, buffer_index_add, buffer_index_diff,
    buffer_socket_write_chunk0, memcpy, htons, leBytes, List.range_succ]
  decide

set_option maxRecDepth 8192 in
/-- Composing and flushing the IGNORED acknowledgment from a rewound buffer
drains exactly the framed message 00 02 B0 7E 00 00 and leaves state and
reset untouched. -/
theorem resetFlush_ignored (c : BoltClient) (hw : c.write = ⟨0, 0⟩)
    (hww : c.write_buf.write = ⟨0, 2⟩) :
    (resetFlush (bolt_reply_structure c BST_IGNORED 0)).2
      = [0x00, 0x02, 0xB0, 0x7E, 0x00, 0x00] ∧
    (resetFlush (bolt_reply_structure c BST_IGNORED 0)).1.state = c.state ∧
    (resetFlush (bolt_reply_structure c BST_IGNORED 0)).1.reset = c.reset := by
  obtain ⟨sock, st, ws, rst, proc, shut, rb, mb, wb, w⟩ := c
  obtain ⟨M, N, br, bw⟩ := wb
  simp only at hw hww
  subst hw hww
  refine ⟨?_, rfl, rfl⟩
  norm_num [resetFlush, bolt_reply_structure, bufAppend, clientWriteAtWrite,
    tagByte, buffer_write_of_le, chunk_size_eq, buffer_index_add, buffer_index_diff,
    buffer_socket_write_chunk0, memcpy, htons, leBytes, List.range_succ]
  decide

/-- C2: with the reset flag set, bolt_client_send emits exactly one framed
SUCCESS with an empty map (00 03 B1 70 A0 00 00) and clears reset, leaving
the state unchanged, when the state is not FAILED; in the FAILED state it
emits exactly one framed IGNORED (00 02 B0 7E 00 00) followed by that framed
SUCCESS, clears reset, and moves the state to READY. -/
theorem claim_C2_reset_path (c : BoltClient) (hr : c.reset = true) :
    (c.state ≠ BS_FAILED →
      (bolt_client_send c).2 = [0x00, 0x03, 0xB1, 0x70, 0xA0, 0x00, 0x00] ∧
      (bolt_client_send c).1.reset = false ∧
      (bolt_client_send c).1.state = c.state) ∧
    (c.state = BS_FAILED →
      (bolt_client_send c).2 =
        [0x00, 0x02, 0xB0, 0x7E, 0x00, 0x00] ++ [0x00, 0x03, 0xB1, 0x70, 0xA0, 0x00, 0x00] ∧
      (bolt_client_send c).1.reset = false ∧
      (bolt_client_send c).1.state = BS_READY) := by
  constructor
  · intro hs
    have hsend : bolt_client_send c =
        ({ resetRewind (resetFlush (bolt_reply_map (bolt_reply_structure (resetRewind c)
              BST_SUCCESS 1) 0)).1 with reset := false },
          (resetFlush (bolt_reply_map (bolt_reply_structure (resetRewind c)
            BST_SUCCESS 1) 0)).2) := by
      simp only [bolt_client_send]
      rw [if_pos hr, if_pos (show (resetRewind c).state ≠ BS_FAILED from hs)]
    obtain ⟨hout, hst, hrs⟩ := resetFlush_success (resetRewind c) rfl rfl
    rw [hsend]
    exact ⟨hout, rfl, hst⟩
  · intro hs
    have hsend : bolt_client_send c =
        ({ resetRewind (resetFlush (bolt_reply_map (bolt_reply_structure
              (resetRewind (resetFlush (bolt_reply_structure (resetRewind c)
                BST_IGNORED 0)).1) BST_SUCCESS 1) 0)).1 with
            reset := false,
            state := BS_READY },
          (resetFlush (bolt_reply_structure (resetRewind c) BST_IGNORED 0)).2
            ++ (resetFlush (bolt_reply_map (bolt_reply_structure
              (resetRewind (resetFlush (bolt_reply_structure (resetRewind c)
                BST_IGNORED 0)).1) BST_SUCCESS 1) 0)).2) := by
      simp only [bolt_client_send]
      rw [if_pos hr, if_neg (show ¬ (resetRewind c).state ≠ BS_FAILED from
        fun hne => hne hs)]
    obtain ⟨hout1, -, -⟩ := resetFlush_ignored (resetRewind c) rfl rfl
    obtain ⟨hout2, -, -⟩ := resetFlush_success
      (resetRewind (resetFlush (bolt_reply_structure (resetRewind c) BST_IGNORED 0)).1)
      rfl rfl
    rw [hsend, hout1, hout2]
    exact ⟨rfl, rfl, rfl⟩

/-- Witness for C2 at a concrete non-FAILED session with reset raised. -/
theorem claim_C2_reset_path_witness :
    (cexReset.state ≠ BS_FAILED →
      (bolt_client_send cexReset).2 = [0x00, 0x03, 0xB1, 0x70, 0xA0, 0x00, 0x00] ∧
      (bolt_client_send cexReset).1.reset = false ∧
      (bolt_client_send cexReset).1.state = cexReset.state) ∧
    (cexReset.state = BS_FAILED →
      (bolt_client_send cexReset).2 =
        [0x00, 0x02, 0xB0, 0x7E, 0x00, 0x00] ++ [0x00, 0x03, 0xB1, 0x70, 0xA0, 0x00, 0x00] ∧
      (bolt_client_send cexReset).1.reset = false ∧
      (bolt_client_send cexReset).1.state = BS_READY) :=
  claim_C2_reset_path cexReset rfl

end FalkorBolt
